import Mathlib

/-!
Verification of the flux_generator provider-routing and job-completion
subsystem.  The definitions below are shallow embeddings of the Python
source files `comfyui_provider.py`, `image_provider.py`, and
`image_provider_router.py`: Python dicts are association lists preserving
insertion order, dict assignment sets an existing key in place or appends
a new one, and `try/except` control flow becomes explicit `Except` values.
-/

namespace FluxGen

/-- JSON-like values stored in workflow node input fields. -/
inductive JVal
  | vstr (s : String)
  | vint (n : Int)
  | vrat (q : Rat)
deriving DecidableEq

/-- A node input mapping (Python dict, insertion-ordered). -/
abbrev Inputs := List (String × JVal)

/-- Python `k in d` membership test on a dict. -/
def dictContains (xs : Inputs) (k : String) : Bool :=
  xs.any (fun p => p.1 = k)

/-- Python `d[k] = v`: overwrite an existing key in place, or append a new
key at the end (insertion-order semantics of Python dicts). -/
def dictSet (xs : Inputs) (k : String) (v : JVal) : Inputs :=
  if dictContains xs k then
    xs.map (fun p => if p.1 = k then (k, v) else p)
  else
    xs ++ [(k, v)]

/-- Python `d.get(k)` on a node input mapping. -/
def dictGet : Inputs → String → Option JVal
  | [], _ => none
  | p :: t, k => if p.1 = k then some p.2 else dictGet t k

/-- One workflow node: `{"class_type": ..., "inputs": {...}}`. -/
structure Node where
  class_type : String
  inputs : Inputs
deriving DecidableEq

/-- A workflow JSON object: node-id to node, insertion-ordered. -/
abbrev Workflow := List (String × Node)

/-- Python `workflow_json[node_id]` (node ids are unique keys). -/
def wfLookup : Workflow → String → Option Node
  | [], _ => none
  | p :: t, id => if p.1 = id then some p.2 else wfLookup t id

/-- `ComfyUIProvider.find_node_by_class_type`: first node id (in the
graph's iteration order) whose `class_type` matches. -/
def findNodeByClassType : Workflow → String → Option String
  | [], _ => none
  | p :: t, ct => if p.2.class_type = ct then some p.1 else findNodeByClassType t ct

/-- Mutate the node stored under `id` (Python mutates the dict entry in
place; keys and order are unaffected). -/
def updateNode (wf : Workflow) (id : String) (f : Node → Node) : Workflow :=
  wf.map (fun p => if p.1 = id then (p.1, f p.2) else p)

/-- Python truthiness of an optional string (`None` and `""` are falsy). -/
def strTruthy : Option String → Bool
  | none => false
  | some s => !s.isEmpty

/-- The encoder class names recognized by `_inject_parameters`, in the
priority order the source checks them. -/
def textEncodeTypes : List String :=
  ["CLIPTextEncodeSDXL", "CLIPTextEncodeSDXLRefiner", "CLIPTextEncode"]

/-- The positive-prompt node search: loop over the three encoder types,
breaking on the first truthy find; the final loop iteration's result is
kept even when falsy. -/
def findPosNode (wf : Workflow) : Option String :=
  let r1 := findNodeByClassType wf "CLIPTextEncodeSDXL"
  if strTruthy r1 then r1 else
  let r2 := findNodeByClassType wf "CLIPTextEncodeSDXLRefiner"
  if strTruthy r2 then r2 else
  findNodeByClassType wf "CLIPTextEncode"

/-- The negative-prompt node search: first node whose class is an encoder
type and whose id differs from the positive node's id. -/
def findNegNode : Workflow → Option String → Option String
  | [], _ => none
  | p :: t, posId =>
      if p.2.class_type ∈ textEncodeTypes ∧ posId ≠ some p.1 then some p.1
      else findNegNode t posId

/-- Prompt-text injection into one encoder node: set `text` if present,
else `text_g` (and `text_l` if also present). -/
def injectText (prompt : String) (nd : Node) : Node :=
  if dictContains nd.inputs "text" then
    { nd with inputs := dictSet nd.inputs "text" (.vstr prompt) }
  else if dictContains nd.inputs "text_g" then
    let i := dictSet nd.inputs "text_g" (.vstr prompt)
    if dictContains i "text_l" then
      { nd with inputs := dictSet i "text_l" (.vstr prompt) }
    else
      { nd with inputs := i }
  else nd

/-- Sampler-field injection: `seed` only when a seed is provided, `steps`
and `cfg` always, `denoise` only when a denoise weight is provided.  Each
is a plain dict assignment (it appends the key when absent). -/
def injectSampler (seed : Option Int) (steps : Int) (cfg : Rat)
    (denoise : Option Rat) (nd : Node) : Node :=
  let i0 := match seed with
    | some s => dictSet nd.inputs "seed" (.vint s)
    | none => nd.inputs
  let i1 := dictSet i0 "steps" (.vint steps)
  let i2 := dictSet i1 "cfg" (.vrat cfg)
  let i3 := match denoise with
    | some d => dictSet i2 "denoise" (.vrat d)
    | none => i2
  { nd with inputs := i3 }

/-- Size-spec injection: unconditional dict assignment of `width` and
`height`. -/
def injectLatent (width height : Int) (nd : Node) : Node :=
  { nd with inputs := dictSet (dictSet nd.inputs "width" (.vint width)) "height" (.vint height) }

/-- Image-loader injection: set `image` or `filename`, whichever is
present. -/
def injectLoadImage (fn : String) (nd : Node) : Node :=
  if dictContains nd.inputs "image" then
    { nd with inputs := dictSet nd.inputs "image" (.vstr fn) }
  else if dictContains nd.inputs "filename" then
    { nd with inputs := dictSet nd.inputs "filename" (.vstr fn) }
  else nd

/-- Mode-switch injection: set whichever of `value`/`text`/`select` is
present. -/
def injectSwitch (mode : String) (nd : Node) : Node :=
  if dictContains nd.inputs "value" then
    { nd with inputs := dictSet nd.inputs "value" (.vstr mode) }
  else if dictContains nd.inputs "text" then
    { nd with inputs := dictSet nd.inputs "text" (.vstr mode) }
  else if dictContains nd.inputs "select" then
    { nd with inputs := dictSet nd.inputs "select" (.vstr mode) }
  else nd

/-- Qwen VLM node injection: set `query` if present. -/
def injectQwen (prompt : String) (nd : Node) : Node :=
  if dictContains nd.inputs "query" then
    { nd with inputs := dictSet nd.inputs "query" (.vstr prompt) }
  else nd

/-- FluxGuidance injection: set `guidance` (to the cfg value) if present. -/
def injectGuidance (cfg : Rat) (nd : Node) : Node :=
  if dictContains nd.inputs "guidance" then
    { nd with inputs := dictSet nd.inputs "guidance" (.vrat cfg) }
  else nd

/-- Positive-prompt step of `_inject_parameters`. -/
def injectPosStep (wf : Workflow) (pos : String) : Workflow :=
  let posNode := findPosNode wf
  if strTruthy posNode then updateNode wf (posNode.getD "") (injectText pos) else wf

/-- Negative-prompt step: `posNode` is the id found by the
positive-prompt search; injection happens only when a distinct encoder
node exists and the negative prompt string is truthy. -/
def injectNegStep (wf : Workflow) (posNode : Option String) (neg : String) : Workflow :=
  let negNode := findNegNode wf posNode
  if strTruthy negNode && !neg.isEmpty
    then updateNode wf (negNode.getD "") (injectText neg)
    else wf

/-- Sampler step (unconditional `steps`/`cfg` assignment). -/
def injectSamplerStep (wf : Workflow) (seed : Option Int) (steps : Int)
    (cfg : Rat) (denoise : Option Rat) : Workflow :=
  let samplerNode := findNodeByClassType wf "KSampler"
  if strTruthy samplerNode
    then updateNode wf (samplerNode.getD "") (injectSampler seed steps cfg denoise)
    else wf

/-- Size-spec step (`EmptyLatentImage`, falling back to
`EmptySD3LatentImage`; unconditional `width`/`height` assignment). -/
def injectLatentStep (wf : Workflow) (width height : Int) : Workflow :=
  let latentA := findNodeByClassType wf "EmptyLatentImage"
  let latentNode := if strTruthy latentA then latentA
    else findNodeByClassType wf "EmptySD3LatentImage"
  if strTruthy latentNode
    then updateNode wf (latentNode.getD "") (injectLatent width height)
    else wf

/-- Image-loader step (only when an uploaded filename is present). -/
def injectLoadImageStep (wf : Workflow) (uploaded : Option String) : Workflow :=
  if strTruthy uploaded then
    let loadNode := findNodeByClassType wf "LoadImage"
    if strTruthy loadNode
      then updateNode wf (loadNode.getD "") (injectLoadImage (uploaded.getD ""))
      else wf
  else wf

/-- Mode-switch step (`AnySwitch`, falling back to `Primitive`). -/
def injectSwitchStep (wf : Workflow) (mode : String) : Workflow :=
  let switchA := findNodeByClassType wf "AnySwitch"
  let switchNode := if strTruthy switchA then switchA
    else findNodeByClassType wf "Primitive"
  if strTruthy switchNode
    then updateNode wf (switchNode.getD "") (injectSwitch mode)
    else wf

/-- Qwen VLM custom-node step. -/
def injectQwenStep (wf : Workflow) (pos : String) : Workflow :=
  let qwenNode := findNodeByClassType wf "Qwen2-VL-Instruct"
  if strTruthy qwenNode
    then updateNode wf (qwenNode.getD "") (injectQwen pos)
    else wf

/-- FluxGuidance custom-node step. -/
def injectGuidanceStep (wf : Workflow) (cfg : Rat) : Workflow :=
  let fgNode := findNodeByClassType wf "FluxGuidance"
  if strTruthy fgNode
    then updateNode wf (fgNode.getD "") (injectGuidance cfg)
    else wf

/-- `ComfyUIProvider._inject_parameters`: the full parameter-injection
pass over a workflow graph, step for step as in the source. -/
def injectParameters (wf : Workflow) (posPrompt negPrompt : String)
    (seed : Option Int) (steps : Int) (cfg : Rat) (width height : Int)
    (uploadedFilename : Option String) (denoiseWeight : Option Rat)
    (modeSwitchValue : String) : Workflow :=
  let wf1 := injectPosStep wf posPrompt
  let wf2 := injectNegStep wf1 (findPosNode wf) negPrompt
  let wf3 := injectSamplerStep wf2 seed steps cfg denoiseWeight
  let wf4 := injectLatentStep wf3 width height
  let wf5 := injectLoadImageStep wf4 uploadedFilename
  let wf6 := injectSwitchStep wf5 modeSwitchValue
  let wf7 := injectQwenStep wf6 posPrompt
  injectGuidanceStep wf7 cfg

/-! ## Completion waiter (`ComfyUIProvider.wait_for_completion`)

Time is modelled in fixed poll ticks: the polling loop sleeps 0.5 s
(`pollIntervalMs` = 500) before each status query, and the wall-clock
deadline `timeout` seconds admits `timeout * 1000 / 500` polls before the
`while` condition fails and `TimeoutError` is raised. -/

/-- An artifact descriptor in a history response
(`filename` / `subfolder` / `type`). -/
structure ImageRef where
  filename : String
  subfolder : String
  itype : String
deriving DecidableEq

/-- One node's entry in the history `outputs` mapping; `images` is
present or absent. -/
structure NodeOutput where
  images : Option (List ImageRef)
deriving DecidableEq

/-- The per-prompt history record: optional `status`, optional `error`
message, optional `outputs` mapping. -/
structure PromptData where
  status : Option String
  errMsg : Option String
  outputs : Option (List (String × NodeOutput))
deriving DecidableEq

/-- The outcome of one `get_history` call as observed by the poll loop:
an HTTP error, some other raised exception, or a history dict in which
the prompt id is present (`some pd`) or not (`none`). -/
inductive PollResp
  | raiseHttp (code : Nat)
  | raiseExn (msg : String)
  | hist (pd : Option PromptData)
deriving DecidableEq

/-- Exceptions as seen by the poll loop's `except` clauses. -/
inductive PyExn
  | httpErr (code : Nat)
  | exn (msg : String)
deriving DecidableEq

/-- All artifact descriptors listed in an `outputs` mapping, in iteration
order (the code issues one `get_image` call per descriptor). -/
def collectImages (outs : List (String × NodeOutput)) : List ImageRef :=
  (outs.map (fun p => p.2.images.getD [])).flatten

/-- The body of one poll iteration inside its `try`: either a normal
fall-through (`ok none`), a successful image retrieval (`ok (some imgs)`),
or a raised exception.  A history record with `status == "error"` raises
a descriptive `ComfyUI execution error` exception before any output is
read. -/
def pollBodyInner : PollResp → Except PyExn (Option (List ImageRef))
  | .raiseHttp c => .error (.httpErr c)
  | .raiseExn m => .error (.exn m)
  | .hist none => .ok none
  | .hist (some pd) =>
      if pd.status == some "error" then
        .error (.exn ("ComfyUI execution error: " ++ pd.errMsg.getD "Unknown error"))
      else match pd.outputs with
        | none => .ok none
        | some outs =>
            let imgs := collectImages outs
            if imgs.isEmpty then .ok none else .ok (some imgs)

/-- The visible effect of one poll iteration after the `except` clauses:
HTTP 404 and every generic exception — including the execution-error
raise above — are swallowed and the loop continues; other HTTP errors
propagate. -/
inductive StepRes
  | done (imgs : List ImageRef)
  | raiseHttp (code : Nat)
  | cont
deriving DecidableEq

def pollStep (r : PollResp) : StepRes :=
  match pollBodyInner r with
  | .ok (some imgs) => .done imgs
  | .ok none => .cont
  | .error (.httpErr c) => if c == 404 then .cont else .raiseHttp c
  | .error (.exn _) => .cont

/-- Terminal outcome of a `wait_for_completion` call. -/
inductive WaitResult
  | images (imgs : List ImageRef)
  | httpRaise (code : Nat)
  | timeout
deriving DecidableEq

/-- Observable trace of the polling loop: its outcome, the number of
status polls performed, and the number of artifact-retrieval
(`get_image`) calls. -/
structure PollTrace where
  result : WaitResult
  polls : Nat
  artifacts : Nat
deriving DecidableEq

/-- The polling loop: while elapsed time is below the deadline, sleep one
interval, poll once, and react; when the deadline is exhausted, raise
`TimeoutError`.  `remaining` counts the poll intervals left before the
deadline and `k` indexes the current poll. -/
def pollLoopAux (resp : Nat → PollResp) : Nat → Nat → PollTrace
  | 0, _ => ⟨.timeout, 0, 0⟩
  | n + 1, k =>
      match pollStep (resp k) with
      | .done imgs => ⟨.images imgs, 1, imgs.length⟩
      | .raiseHttp c => ⟨.httpRaise c, 1, 0⟩
      | .cont =>
          let t := pollLoopAux resp n (k + 1)
          ⟨t.result, t.polls + 1, t.artifacts⟩

/-- Poll interval of the fallback loop (`time.sleep(0.5)`), in ms. -/
def pollIntervalMs : Nat := 500

/-- Default `timeout` argument of `wait_for_completion`, in seconds. -/
def defaultTimeoutS : Nat := 300

/-- Number of polls that fit into a deadline of `tS` seconds. -/
def ticksFor (tS : Nat) : Nat := tS * 1000 / pollIntervalMs

/-- Poll-mode wait: run the loop from tick 0. -/
def waitPoll (resp : Nat → PollResp) (ticks : Nat) : PollTrace :=
  pollLoopAux resp ticks 0

/-- Outcome of the WebSocket (push-mode) attempt: either some exception
is raised while establishing or using the channel — before the final
history fetch — or the event loop finishes and the final `get_history`
call yields `h` (or itself raises). -/
inductive WsOutcome
  | wsRaise (msg : String)
  | wsFetched (h : Except PyExn (Option PromptData))

/-- Artifacts retrieved by the push path's single final fetch. -/
def collectHist (h : Option PromptData) : List ImageRef :=
  match h with
  | some pd => match pd.outputs with
      | some outs => collectImages outs
      | none => []
  | none => []

/-- Observable trace of a full `wait_for_completion` call, adding the
number of push-channel attempts. -/
structure WaitTrace where
  result : WaitResult
  polls : Nat
  artifacts : Nat
  wsAttempts : Nat
deriving DecidableEq

/-- `ComfyUIProvider.wait_for_completion`: try the WebSocket method first
when the library is available; any exception from it falls back — once,
and never back again — to the polling loop. -/
def waitForCompletion (wsAvailable : Bool) (ws : WsOutcome)
    (resp : Nat → PollResp) (ticks : Nat) : WaitTrace :=
  if wsAvailable then
    match ws with
    | .wsFetched (.ok h) =>
        let imgs := collectHist h
        ⟨.images imgs, 0, imgs.length, 1⟩
    | .wsFetched (.error _) =>
        let t := waitPoll resp ticks
        ⟨t.result, t.polls, t.artifacts, 1⟩
    | .wsRaise _ =>
        let t := waitPoll resp ticks
        ⟨t.result, t.polls, t.artifacts, 1⟩
  else
    let t := waitPoll resp ticks
    ⟨t.result, t.polls, t.artifacts, 0⟩

/-! ## BFL submission with endpoint fallback (`FluxProvider._generate_bfl`) -/

/-- Does `pat` occur at the head of the character list? -/
def listStartsWith : List Char → List Char → Bool
  | [], _ => true
  | _ :: _, [] => false
  | p :: ps, c :: cs => (p == c) && listStartsWith ps cs

/-- Does `pat` occur anywhere in the character list (Python `in`)? -/
def listContainsSub (pat : List Char) : List Char → Bool
  | [] => pat.isEmpty
  | c :: cs => listStartsWith pat (c :: cs) || listContainsSub pat cs

/-- ASCII lower-casing of one character (`str.lower` on the character
range the endpoint names use). -/
def charLower (c : Char) : Char :=
  if 65 ≤ c.toNat ∧ c.toNat ≤ 90 then Char.ofNat (c.toNat + 32) else c

/-- `str.lower()`. -/
def strLower (s : String) : String := ⟨s.data.map charLower⟩

/-- Substring test (`pat in s`), adequate for the fixed patterns used by
the endpoint table (`"kontext"`, `"pro"`, `"dev"`). -/
def strContains (s pat : String) : Bool :=
  listContainsSub pat.data s.data

/-- The model-name table mapping configured model names to BFL API
endpoints (`model_map` in `_generate_bfl`). -/
def bflModelMap : List (String × String) :=
  [("flux-schnell", "flux-dev"), ("flux1.1-schnell", "flux-dev"),
   ("flux-dev", "flux-dev"), ("flux1.1-dev", "flux-dev"),
   ("flux-pro", "flux-pro"), ("flux1.1-pro", "flux-pro"),
   ("flux-kontext", "flux-kontext-pro"), ("flux-kontext-pro", "flux-kontext-pro"),
   ("flux-kontext-max", "flux-kontext-max")]

/-- `model_map.get(self.model, "flux-pro")`. -/
def bflModelFor (model : String) : String :=
  (bflModelMap.lookup model).getD "flux-pro"

/-- The primary endpoint URL for a BFL model. -/
def bflApiUrl (bflModel : String) : String :=
  "https://api.bfl.ai/" ++ bflModel

/-- The fixed ordered alternative-endpoint table consulted after a 404,
chosen by the model family. -/
def bflAlternatives (bflModel : String) : List String :=
  let m := strLower bflModel
  if strContains m "kontext" then
    ["https://api.bfl.ai/flux-kontext-pro",
     "https://api.bfl.ai/flux-kontext-max",
     "https://api.bfl.ai/v1/flux-kontext-pro"]
  else if strContains m "pro" && !strContains m "kontext" then
    ["https://api.bfl.ai/flux-pro-1.1",
     "https://api.bfl.ai/flux-pro",
     "https://api.bfl.ai/v1/flux-pro-1.1"]
  else if strContains m "dev" then
    ["https://api.bfl.ai/flux-dev",
     "https://api.bfl.ai/v1/flux-dev"]
  else []

/-- An HTTP response to a submission POST: its status code and the
`polling_url` field of its JSON body (if any). -/
structure HttpResp where
  status : Nat
  pollingUrl : Option String
deriving DecidableEq

/-- The network environment for submission POSTs: each URL either raises
(`error`) or yields a response. -/
abbrev PostEnv := String → Except String HttpResp

/-- Is a status code in the success list `[200, 201, 202]` the code
checks for alternatives? -/
def bflSuccessStatus (s : Nat) : Bool :=
  s == 200 || s == 201 || s == 202

/-- The alternative-endpoint loop: skip the entry equal to the primary
URL without posting; POST the rest in order; adopt the first whose status
is in the success list; exceptions and other statuses are skipped.
Returns the adopted (url, response) if any, plus the list of URLs
actually posted. -/
def tryAlternatives (env : PostEnv) (primary : String) :
    List String → Option (String × HttpResp) × List String
  | [] => (none, [])
  | alt :: rest =>
      if alt == primary then tryAlternatives env primary rest
      else match env alt with
        | .error _ =>
            let (f, p) := tryAlternatives env primary rest
            (f, alt :: p)
        | .ok r =>
            if bflSuccessStatus r.status then (some (alt, r), [alt])
            else
              let (f, p) := tryAlternatives env primary rest
              (f, alt :: p)

/-- Outcome of the submission step of `_generate_bfl`. -/
inductive SubmitResult
  | adopted (endpoint : String) (resp : HttpResp)
  | httpError (code : Nat)
  | requestError (msg : String)
deriving DecidableEq

/-- The submission step: POST the primary endpoint; on 404, walk the
alternative table; on any other HTTP error status, `raise_for_status`
surfaces it immediately with no alternative tried.  Returns the result
and the ordered list of URLs posted. -/
def submitBfl (env : PostEnv) (model : String) : SubmitResult × List String :=
  let apiUrl := bflApiUrl (bflModelFor model)
  match env apiUrl with
  | .error e => (.requestError e, [apiUrl])
  | .ok resp =>
      if resp.status == 404 then
        let (found, posted) := tryAlternatives env apiUrl (bflAlternatives (bflModelFor model))
        match found with
        | some (u, r) => (.adopted u r, apiUrl :: posted)
        | none => (.httpError 404, apiUrl :: posted)
      else if resp.status ≥ 400 then (.httpError resp.status, [apiUrl])
      else (.adopted apiUrl resp, [apiUrl])

/-- The polling URL used by step 2 of `_generate_bfl` for every
subsequent status poll of the job: the truthy `polling_url` field of the
adopted submission response (absent or empty raises `ValueError`). -/
def bflPollTarget (env : PostEnv) (model : String) : Option String :=
  match (submitBfl env model).1 with
  | .adopted _ r =>
      match r.pollingUrl with
      | some u => if u.isEmpty then none else some u
      | none => none
  | _ => none

/-! ## Provider router (`image_provider_router.py`) and request/result
model (`image_provider.py`) -/

/-- `ImageStyle` enum. -/
inductive ImageStyle
  | fast_draft | photoreal | brand_layout | portrait
  | product | logo_text | artistic | cinematic
deriving DecidableEq

def ImageStyle.value : ImageStyle → String
  | .fast_draft => "fast_draft"
  | .photoreal => "photoreal"
  | .brand_layout => "brand_layout"
  | .portrait => "portrait"
  | .product => "product"
  | .logo_text => "logo_text"
  | .artistic => "artistic"
  | .cinematic => "cinematic"

/-- `ImageGenerationRequest` (dataclass, not frozen — fields are plain
mutable attributes). -/
structure GenRequest where
  prompt : String
  negative_prompt : Option String := none
  width : Int := 1024
  height : Int := 1024
  seed : Option Int := none
  steps : Option Int := none
  guidance_scale : Option Rat := none
  style : Option ImageStyle := none
  source_image_url : Option String := none
  mask_image_url : Option String := none
  strength : Option Rat := none
  num_images : Int := 1
  provider : Option String := none
deriving DecidableEq

/-- `ImageGenerationResult` (image payloads abstracted to strings). -/
structure GenResult where
  success : Bool
  images : List String
  provider : String
  model : String
  error : Option String := none
deriving DecidableEq

/-- Which adapter class a registered provider instance is (used for the
`isinstance(provider, FluxProvider)` checks). -/
inductive ProviderKind
  | openai | flux | comfyui
deriving DecidableEq

/-- A registered provider adapter with its shared mutable `model`
attribute. -/
structure Provider where
  kind : ProviderKind
  provider_name : String
  model : String
deriving DecidableEq

/-- The provider registry (`self.providers` dict). -/
abbrev ProviderMap := List (String × Provider)

/-- One entry of the feature- or style-routing tables. -/
structure RouteCfg where
  provider : Option String := none
  model : Option String := none
deriving DecidableEq

/-- The routing rules (`self.routing_rules` dict). -/
structure RoutingRules where
  default_provider : Option String := none
  style_routing : List (String × RouteCfg) := []
  feature_routing : List (String × RouteCfg) := []
  fallback_chain : Option (List String) := none
deriving DecidableEq

/-- `provider.model = m` on the shared registry entry: Python mutates the
adapter object held in the dict, so the registry observes the change. -/
def setProviderModel (providers : ProviderMap) (name : String) (m : String) : ProviderMap :=
  providers.map (fun p => if p.1 == name then (p.1, { p.2 with model := m }) else p)

/-- The img2img feature-routing branch: when the rule's provider is
registered, select it, switching a Flux adapter's shared `model` to the
rule's model (default `"flux-kontext-pro"`).  `none` means the branch
falls through. -/
def routeImg2Img (fr : List (String × RouteCfg)) (providers : ProviderMap) :
    Option (Provider × ProviderMap) :=
  match fr.lookup "img2img" with
  | none => none
  | some cfg =>
      match cfg.provider with
      | none => none
      | some pname =>
          match providers.lookup pname with
          | none => none
          | some prov =>
              if prov.kind == .flux then
                let m := cfg.model.getD "flux-kontext-pro"
                some ({ prov with model := m }, setProviderModel providers pname m)
              else some (prov, providers)

/-- The inpainting feature-routing branch (no model override). -/
def routeInpaint (fr : List (String × RouteCfg)) (providers : ProviderMap) :
    Option (Provider × ProviderMap) :=
  match fr.lookup "inpainting" with
  | none => none
  | some cfg =>
      match cfg.provider with
      | none => none
      | some pname => (providers.lookup pname).map (fun p => (p, providers))

/-- The style-routing branch: like img2img but the Flux model is switched
only when the rule carries a `model` key. -/
def routeStyle (sr : List (String × RouteCfg)) (providers : ProviderMap)
    (styleName : String) : Option (Provider × ProviderMap) :=
  match sr.lookup styleName with
  | none => none
  | some cfg =>
      match cfg.provider with
      | none => none
      | some pname =>
          match providers.lookup pname with
          | none => none
          | some prov =>
              match cfg.model with
              | some m =>
                  if prov.kind == .flux then
                    some ({ prov with model := m }, setProviderModel providers pname m)
                  else some (prov, providers)
              | none => some (prov, providers)

/-- `ImageProviderRouter.select_provider`: explicit override, then
feature routing (img2img, inpainting), then style routing, then the
configured default.  Returns the selected provider (if any) together
with the registry as left behind by the call (model overrides are
written through to the shared adapters). -/
def selectProvider (rules : RoutingRules) (providers : ProviderMap)
    (req : GenRequest) : Option Provider × ProviderMap :=
  if strTruthy req.provider then
    (providers.lookup (req.provider.getD ""), providers)
  else
    match (if strTruthy req.source_image_url then
             routeImg2Img rules.feature_routing providers
           else none) with
    | some (p, ps) => (some p, ps)
    | none =>
        match (if strTruthy req.mask_image_url then
                 routeInpaint rules.feature_routing providers
               else none) with
        | some (p, ps) => (some p, ps)
        | none =>
            match (match req.style with
                   | some st => routeStyle rules.style_routing providers st.value
                   | none => none) with
            | some (p, ps) => (some p, ps)
            | none =>
                (providers.lookup (rules.default_provider.getD "openai"), providers)

/-- The well-formed failure result returned when no provider can be
found at all. -/
def noProviderResult : GenResult :=
  { success := false, images := [], provider := "unknown", model := "unknown",
    error := some "No available image providers" }

/-- `ImageProviderRouter.generate`: select a provider; when selection
yields none, walk the fallback chain and use the first registered
provider; when that is also empty, return the no-provider failure
result.  The provider's own generate call is abstracted by `genFn`. -/
def routerGenerate (rules : RoutingRules) (providers : ProviderMap)
    (req : GenRequest) (genFn : Provider → GenRequest → GenResult) :
    GenResult × ProviderMap :=
  let sel := selectProvider rules providers req
  match sel.1 with
  | some p => (genFn p req, sel.2)
  | none =>
      let chain := rules.fallback_chain.getD ["openai"]
      match chain.findSome? (fun n => sel.2.lookup n) with
      | some p => (genFn p req, sel.2)
      | none => (noProviderResult, sel.2)

/-- `OpenAIImagesProvider.generate` rewrites the request's `width` and
`height` attributes in place when they differ from 1024 (the DALL-E 3
constraint); this is the request object as left behind by the call. -/
def openaiAdjustRequest (req : GenRequest) : GenRequest :=
  if req.width ≠ 1024 ∨ req.height ≠ 1024 then
    { req with width := 1024, height := 1024 }
  else req

/-! ## Helper lemmas -/

/-- When every poll observed before the deadline is non-terminal, the
loop runs its full budget of polls and ends in timeout with no artifact
retrieval. -/
theorem pollLoopAux_all_cont (resp : Nat → PollResp) :
    ∀ (n k : Nat), (∀ j, k ≤ j → j < k + n → pollStep (resp j) = .cont) →
      pollLoopAux resp n k = ⟨.timeout, n, 0⟩
  | 0, _, _ => rfl
  | n + 1, k, h => by
      have h0 : pollStep (resp k) = .cont := h k le_rfl (by omega)
      have ih := pollLoopAux_all_cont resp n (k + 1)
        (fun j hj1 hj2 => h j (by omega) (by omega))
      simp [pollLoopAux, h0, ih]

/-- First hit of `findSome?` after a none-yielding segment. -/
theorem findSome?_eq_of_first {α β : Type} (f : α → Option β)
    (A : List α) (n : α) (B : List α) (p : β)
    (hA : ∀ a ∈ A, f a = none) (hn : f n = some p) :
    (A ++ n :: B).findSome? f = some p := by
  induction A with
  | nil => simp [List.findSome?_cons, hn]
  | cons a A ih =>
      have ha : f a = none := hA a (by simp)
      simp only [List.cons_append, List.findSome?_cons, ha]
      exact ih (fun x hx => hA x (by simp [hx]))

theorem findSome?_none {α β : Type} (l : List α) :
    l.findSome? (fun _ => (none : Option β)) = none := by
  induction l with
  | nil => rfl
  | cons a t ih => simp [List.findSome?_cons, ih]

theorem routeImg2Img_nil (fr : List (String × RouteCfg)) :
    routeImg2Img fr [] = none := by
  rcases h : fr.lookup "img2img" with _ | cfg
  · simp [routeImg2Img, h]
  · rcases h2 : cfg.provider with _ | pname
    · simp [routeImg2Img, h, h2]
    · simp [routeImg2Img, h, h2]

theorem routeInpaint_nil (fr : List (String × RouteCfg)) :
    routeInpaint fr [] = none := by
  rcases h : fr.lookup "inpainting" with _ | cfg
  · simp [routeInpaint, h]
  · rcases h2 : cfg.provider with _ | pname
    · simp [routeInpaint, h, h2]
    · simp [routeInpaint, h, h2]

theorem routeStyle_nil (sr : List (String × RouteCfg)) (st : String) :
    routeStyle sr [] st = none := by
  rcases h : sr.lookup st with _ | cfg
  · simp [routeStyle, h]
  · rcases h2 : cfg.provider with _ | pname
    · simp [routeStyle, h, h2]
    · simp [routeStyle, h, h2]

theorem selectProvider_nil (rules : RoutingRules) (req : GenRequest) :
    selectProvider rules [] req = (none, []) := by
  unfold selectProvider
  by_cases h : strTruthy req.provider = true
  · simp [h]
  · simp only [Bool.not_eq_true] at h
    simp only [h, Bool.false_eq_true, if_false]
    cases hs : strTruthy req.source_image_url <;>
      cases hm : strTruthy req.mask_image_url <;>
        cases hst : req.style <;>
          simp [routeImg2Img_nil, routeInpaint_nil, routeStyle_nil]

/-- `lookup` after a shared-adapter model write. -/
theorem lookup_setProviderModel (providers : ProviderMap) (name m : String) :
    (setProviderModel providers name m).lookup name =
      (providers.lookup name).map (fun p => { p with model := m }) := by
  induction providers with
  | nil => rfl
  | cons q t ih =>
      rcases q with ⟨k, v⟩
      by_cases h : k = name
      · subst h
        simp only [setProviderModel, List.map_cons, beq_self_eq_true, if_true]
        simp [List.lookup]
      · have h1 : (k == name) = false := beq_eq_false_iff_ne.mpr h
        have h2 : (name == k) = false := beq_eq_false_iff_ne.mpr (Ne.symm h)
        simp only [setProviderModel, List.map_cons, h1, Bool.false_eq_true, if_false]
        simp only [List.lookup, h2]
        simpa [setProviderModel] using ih

/-- Nonempty strings are truthy. -/
theorem strTruthy_some_of_ne (x : String) (hx : x ≠ "") :
    strTruthy (some x) = true := by
  have : x.isEmpty = false := by
    rcases hb : x.isEmpty with _ | _
    · rfl
    · exact absurd ((String.isEmpty_iff x).mp hb) hx
  simp [strTruthy, this]

/-- The alternative loop adopts the first entry distinct from the
primary URL whose POST returns a success status; earlier entries are
skipped because they equal the primary, raise, or return a non-success
status. -/
theorem tryAlternatives_first_success (env : PostEnv) (primary : String)
    (A : List String) (alt : String) (B : List String) (r : HttpResp)
    (hA : ∀ a ∈ A, a = primary ∨ (∃ e, env a = .error e) ∨
          (∃ ra, env a = .ok ra ∧ bflSuccessStatus ra.status = false))
    (halt : alt ≠ primary) (hr : env alt = .ok r)
    (hs : bflSuccessStatus r.status = true) :
    (tryAlternatives env primary (A ++ alt :: B)).1 = some (alt, r) := by
  induction A with
  | nil =>
      simp only [List.nil_append, tryAlternatives]
      rw [if_neg (by simpa using halt), hr]
      simp [hs]
  | cons a A ih =>
      have ihA := ih (fun x hx => hA x (by simp [hx]))
      rcases hA a (by simp) with ha | ⟨e, he⟩ | ⟨ra, hra, hfail⟩
      · simpa only [List.cons_append, tryAlternatives, ha, beq_self_eq_true,
          if_true] using ihA
      · simp only [List.cons_append, tryAlternatives, he]
        by_cases hap : a = primary
        · simp [hap, ihA]
        · rw [if_neg (by simpa using hap)]
          simpa using ihA
      · simp only [List.cons_append, tryAlternatives, hra]
        by_cases hap : a = primary
        · simp [hap, ihA]
        · rw [if_neg (by simpa using hap)]
          simp [hfail]
          simpa using ihA

/-! ## Workflow lemmas for the injection claims -/

/-- The node classes whose injection assigns fields unconditionally
(sampler and size-spec nodes). -/
def unconditionalClasses : List String :=
  ["KSampler", "EmptyLatentImage", "EmptySD3LatentImage"]

/-- The fields those unconditional assignments may introduce. -/
def injectedKeys : List String :=
  ["seed", "steps", "cfg", "denoise", "width", "height"]

/-- What one injection pass may do to one node: the class is never
changed; for nodes outside the unconditional classes the input key list
is unchanged; any key introduced anywhere is one of the unconditionally
assigned parameter fields. -/
def NodePres (nd nd' : Node) : Prop :=
  nd'.class_type = nd.class_type ∧
  (nd.class_type ∉ unconditionalClasses →
    nd'.inputs.map Prod.fst = nd.inputs.map Prod.fst) ∧
  ∀ k, k ∈ nd'.inputs.map Prod.fst → k ∈ nd.inputs.map Prod.fst ∨ k ∈ injectedKeys

theorem NodePres.rfl (nd : Node) : NodePres nd nd :=
  ⟨Eq.refl _, fun _ => Eq.refl _, fun _ hk => Or.inl hk⟩

theorem NodePres.trans {a b c : Node} (h1 : NodePres a b) (h2 : NodePres b c) :
    NodePres a c := by
  obtain ⟨hc1, hk1, ha1⟩ := h1
  obtain ⟨hc2, hk2, ha2⟩ := h2
  refine ⟨hc2.trans hc1, ?_, ?_⟩
  · intro hnot
    have := hk2 (by rw [hc1]; exact hnot)
    rw [this, hk1 hnot]
  · intro k hk
    rcases ha2 k hk with h | h
    · exact ha1 k h
    · exact Or.inr h

/-- In-place overwrite portion of `dictSet` keeps the key list. -/
theorem dictSet_overwrite_keys (xs : Inputs) (k : String) (v : JVal) :
    ((xs.map (fun p => if p.1 = k then (k, v) else p)).map Prod.fst) = xs.map Prod.fst := by
  induction xs with
  | nil => rfl
  | cons p t ih =>
      by_cases hp : p.1 = k
      · simp [hp, ih]
      · simp [hp, ih]

/-- Setting an already-present key keeps the key list. -/
theorem dictSet_keys_of_contains (xs : Inputs) (k : String) (v : JVal)
    (h : dictContains xs k = true) :
    (dictSet xs k v).map Prod.fst = xs.map Prod.fst := by
  unfold dictSet
  rw [if_pos h]
  exact dictSet_overwrite_keys xs k v

/-- Any key of `dictSet xs k v` is an old key or `k`. -/
theorem mem_dictSet_keys (xs : Inputs) (k : String) (v : JVal) (k' : String)
    (h : k' ∈ (dictSet xs k v).map Prod.fst) :
    k' ∈ xs.map Prod.fst ∨ k' = k := by
  unfold dictSet at h
  by_cases hc : dictContains xs k = true
  · rw [if_pos hc, dictSet_overwrite_keys] at h
    exact Or.inl h
  · rw [if_neg hc] at h
    simp only [List.map_append, List.mem_append] at h
    rcases h with h | h
    · exact Or.inl h
    · simp at h
      exact Or.inr h

/-- `dictGet` after `dictSet` at the same key. -/
theorem dictGet_dictSet (xs : Inputs) (k : String) (v : JVal) :
    dictGet (dictSet xs k v) k = some v := by
  unfold dictSet
  by_cases hc : dictContains xs k = true
  · rw [if_pos hc]
    induction xs with
    | nil => simp [dictContains] at hc
    | cons q t ih =>
        by_cases hq : q.1 = k
        · simp [dictGet, hq]
        · have hc' : dictContains t k = true := by
            simp only [dictContains, List.any_cons, Bool.or_eq_true,
              decide_eq_true_eq] at hc
            rcases hc with h | h
            · exact absurd h hq
            · exact h
          simp only [List.map_cons, if_neg hq]
          simp only [dictGet, if_neg hq]
          exact ih hc'
  · rw [if_neg hc]
    induction xs with
    | nil => simp [dictGet]
    | cons q t ih =>
        have hq : ¬ q.1 = k := by
          intro h
          exact hc (by simp [dictContains, List.any_cons, h])
        have hc' : ¬ dictContains t k = true := by
          intro h
          apply hc
          simp only [dictContains, List.any_cons, Bool.or_eq_true]
          right
          simpa [dictContains] using h
        simp only [List.cons_append, dictGet, if_neg hq]
        exact ih hc'

/-- `wfLookup` through `updateNode`: the updated id reads back through
`f`; every other id is untouched. -/
theorem wfLookup_updateNode (wf : Workflow) (k : String) (f : Node → Node) (id : String) :
    wfLookup (updateNode wf k f) id =
      if id = k then Option.map f (wfLookup wf id) else wfLookup wf id := by
  induction wf with
  | nil => simp [updateNode, wfLookup]
  | cons q t ih =>
      simp only [updateNode, List.map_cons] at ih ⊢
      by_cases hq : q.1 = k
      · rw [if_pos hq]
        by_cases hid : q.1 = id
        · have hidk : id = k := by rw [← hid, hq]
          simp [wfLookup, hid, hidk]
        · have hidk : id ≠ k := fun h => hid (by rw [hq, ← h])
          simp only [wfLookup, if_neg hid]
          rw [if_neg hidk] at ih ⊢
          exact ih
      · rw [if_neg hq]
        by_cases hid : q.1 = id
        · have hidk : id ≠ k := fun h => hq (by rw [hid, h])
          simp [wfLookup, hid, hidk]
        · simp only [wfLookup, if_neg hid]
          exact ih

/-- `updateNode` keeps the node-id list. -/
theorem updateNode_keys (wf : Workflow) (k : String) (f : Node → Node) :
    (updateNode wf k f).map Prod.fst = wf.map Prod.fst := by
  induction wf with
  | nil => rfl
  | cons q t ih =>
      by_cases hq : q.1 = k
      · simp only [updateNode, List.map_cons, if_pos hq] at ih ⊢
        simp [hq, ih]
      · simp only [updateNode, List.map_cons, if_neg hq] at ih ⊢
        simp [ih]

/-- A found node id belongs to a member of that class. -/
theorem findNodeByClassType_mem (wf : Workflow) (c : String) (k : String)
    (hfind : findNodeByClassType wf c = some k) :
    ∃ m, (k, m) ∈ wf ∧ m.class_type = c := by
  induction wf with
  | nil => cases hfind
  | cons q t ih =>
      by_cases hq : q.2.class_type = c
      · simp only [findNodeByClassType, if_pos hq, Option.some_inj] at hfind
        exact ⟨q.2, by simp [← hfind], hq⟩
      · simp only [findNodeByClassType, if_neg hq] at hfind
        obtain ⟨m, hm, hmc⟩ := ih hfind
        exact ⟨m, List.mem_cons_of_mem _ hm, hmc⟩

/-- With distinct node ids, membership determines `wfLookup`. -/
theorem wfLookup_eq_of_mem_nodup (wf : Workflow) (k : String) (m : Node)
    (hnodup : (wf.map Prod.fst).Nodup) (hmem : (k, m) ∈ wf) :
    wfLookup wf k = some m := by
  induction wf with
  | nil => cases hmem
  | cons q t ih =>
      simp only [List.map_cons, List.nodup_cons] at hnodup
      rcases List.mem_cons.mp hmem with h | h
      · rw [← h]
        simp [wfLookup]
      · have hk : k ∈ t.map Prod.fst :=
          List.mem_map.mpr ⟨(k, m), h, Eq.refl _⟩
        have hne : q.1 ≠ k := fun he => hnodup.1 (he ▸ hk)
        simp only [wfLookup, if_neg hne]
        exact ih hnodup.2 h

/-- An update at a node found by class `c` cannot touch a node whose
class differs from `c` (given distinct node ids). -/
theorem wfLookup_updateNode_found_ne (wf : Workflow) (c : String) (k : String)
    (f : Node → Node) (hnodup : (wf.map Prod.fst).Nodup)
    (hfind : findNodeByClassType wf c = some k)
    (id : String) (nd : Node) (hlk : wfLookup wf id = some nd)
    (hc : nd.class_type ≠ c) :
    wfLookup (updateNode wf k f) id = some nd := by
  have hik : id ≠ k := by
    intro he
    subst he
    obtain ⟨m, hm, hmc⟩ := findNodeByClassType_mem wf c id hfind
    have := wfLookup_eq_of_mem_nodup wf id m hnodup hm
    rw [hlk] at this
    cases this
    exact hc hmc
  rw [wfLookup_updateNode, if_neg hik, hlk]

/-- The guarded text injection never changes class or key list. -/
theorem injectText_pres (p : String) (nd : Node) :
    (injectText p nd).class_type = nd.class_type ∧
    (injectText p nd).inputs.map Prod.fst = nd.inputs.map Prod.fst := by
  unfold injectText
  by_cases h1 : dictContains nd.inputs "text" = true
  · rw [if_pos h1]
    exact ⟨rfl, dictSet_keys_of_contains _ _ _ h1⟩
  · rw [if_neg h1]
    by_cases h2 : dictContains nd.inputs "text_g" = true
    · rw [if_pos h2]
      by_cases h3 : dictContains (dictSet nd.inputs "text_g" (.vstr p)) "text_l" = true
      · rw [if_pos h3]
        refine ⟨rfl, ?_⟩
        rw [dictSet_keys_of_contains _ _ _ h3, dictSet_keys_of_contains _ _ _ h2]
      · rw [if_neg h3]
        exact ⟨rfl, dictSet_keys_of_contains _ _ _ h2⟩
    · rw [if_neg h2]
      exact ⟨rfl, rfl⟩

/-- The guarded image-loader injection never changes class or key list. -/
theorem injectLoadImage_pres (fn : String) (nd : Node) :
    (injectLoadImage fn nd).class_type = nd.class_type ∧
    (injectLoadImage fn nd).inputs.map Prod.fst = nd.inputs.map Prod.fst := by
  unfold injectLoadImage
  by_cases h1 : dictContains nd.inputs "image" = true
  · rw [if_pos h1]
    exact ⟨rfl, dictSet_keys_of_contains _ _ _ h1⟩
  · rw [if_neg h1]
    by_cases h2 : dictContains nd.inputs "filename" = true
    · rw [if_pos h2]
      exact ⟨rfl, dictSet_keys_of_contains _ _ _ h2⟩
    · rw [if_neg h2]
      exact ⟨rfl, rfl⟩

/-- The guarded mode-switch injection never changes class or key list. -/
theorem injectSwitch_pres (mode : String) (nd : Node) :
    (injectSwitch mode nd).class_type = nd.class_type ∧
    (injectSwitch mode nd).inputs.map Prod.fst = nd.inputs.map Prod.fst := by
  unfold injectSwitch
  by_cases h1 : dictContains nd.inputs "value" = true
  · rw [if_pos h1]
    exact ⟨rfl, dictSet_keys_of_contains _ _ _ h1⟩
  · rw [if_neg h1]
    by_cases h2 : dictContains nd.inputs "text" = true
    · rw [if_pos h2]
      exact ⟨rfl, dictSet_keys_of_contains _ _ _ h2⟩
    · rw [if_neg h2]
      by_cases h3 : dictContains nd.inputs "select" = true
      · rw [if_pos h3]
        exact ⟨rfl, dictSet_keys_of_contains _ _ _ h3⟩
      · rw [if_neg h3]
        exact ⟨rfl, rfl⟩

/-- The guarded Qwen injection never changes class or key list. -/
theorem injectQwen_pres (p : String) (nd : Node) :
    (injectQwen p nd).class_type = nd.class_type ∧
    (injectQwen p nd).inputs.map Prod.fst = nd.inputs.map Prod.fst := by
  unfold injectQwen
  by_cases h1 : dictContains nd.inputs "query" = true
  · rw [if_pos h1]
    exact ⟨rfl, dictSet_keys_of_contains _ _ _ h1⟩
  · rw [if_neg h1]
    exact ⟨rfl, rfl⟩

/-- The guarded FluxGuidance injection never changes class or key list. -/
theorem injectGuidance_pres (cfg : Rat) (nd : Node) :
    (injectGuidance cfg nd).class_type = nd.class_type ∧
    (injectGuidance cfg nd).inputs.map Prod.fst = nd.inputs.map Prod.fst := by
  unfold injectGuidance
  by_cases h1 : dictContains nd.inputs "guidance" = true
  · rw [if_pos h1]
    exact ⟨rfl, dictSet_keys_of_contains _ _ _ h1⟩
  · rw [if_neg h1]
    exact ⟨rfl, rfl⟩

/-- The sampler injection keeps the class and adds at most the
unconditional parameter fields. -/
theorem injectSampler_pres (seed : Option Int) (steps : Int) (cfg : Rat)
    (denoise : Option Rat) (nd : Node) :
    (injectSampler seed steps cfg denoise nd).class_type = nd.class_type ∧
    ∀ k', k' ∈ (injectSampler seed steps cfg denoise nd).inputs.map Prod.fst →
      k' ∈ nd.inputs.map Prod.fst ∨ k' ∈ injectedKeys := by
  refine ⟨rfl, ?_⟩
  intro k' hk
  simp only [injectSampler] at hk
  have peel0 : ∀ i0 : Inputs,
      (∀ k'', k'' ∈ i0.map Prod.fst → k'' ∈ nd.inputs.map Prod.fst ∨ k'' ∈ injectedKeys) →
      k' ∈ ((match denoise with
        | some d => dictSet (dictSet (dictSet i0 "steps" (.vint steps)) "cfg" (.vrat cfg)) "denoise" (.vrat d)
        | none => dictSet (dictSet i0 "steps" (.vint steps)) "cfg" (.vrat cfg)).map Prod.fst) →
      k' ∈ nd.inputs.map Prod.fst ∨ k' ∈ injectedKeys := by
    intro i0 hbase hmem
    have peelCfg : ∀ hc : k' ∈ ((dictSet (dictSet i0 "steps" (.vint steps)) "cfg" (.vrat cfg)).map Prod.fst),
        k' ∈ nd.inputs.map Prod.fst ∨ k' ∈ injectedKeys := by
      intro hc
      rcases mem_dictSet_keys _ _ _ _ hc with h | h
      · rcases mem_dictSet_keys _ _ _ _ h with h2 | h2
        · exact hbase k' h2
        · right; subst h2; simp [injectedKeys]
      · right; subst h; simp [injectedKeys]
    rcases denoise with _ | d
    · exact peelCfg hmem
    · rcases mem_dictSet_keys _ _ _ _ hmem with h | h
      · exact peelCfg h
      · right; subst h; simp [injectedKeys]
  rcases hseed : seed with _ | s
  · rw [hseed] at hk
    exact peel0 nd.inputs (fun k'' hm => Or.inl hm) hk
  · rw [hseed] at hk
    refine peel0 (dictSet nd.inputs "seed" (.vint s)) ?_ hk
    intro k'' hm
    rcases mem_dictSet_keys _ _ _ _ hm with h | h
    · exact Or.inl h
    · right; subst h; simp [injectedKeys]

/-- The size-spec injection keeps the class and adds at most
`width`/`height`. -/
theorem injectLatent_pres (width height : Int) (nd : Node) :
    (injectLatent width height nd).class_type = nd.class_type ∧
    ∀ k', k' ∈ (injectLatent width height nd).inputs.map Prod.fst →
      k' ∈ nd.inputs.map Prod.fst ∨ k' ∈ injectedKeys := by
  refine ⟨rfl, ?_⟩
  intro k' hk
  simp only [injectLatent] at hk
  rcases mem_dictSet_keys _ _ _ _ hk with h | h
  · rcases mem_dictSet_keys _ _ _ _ h with h2 | h2
    · exact Or.inl h2
    · right; subst h2; simp [injectedKeys]
  · right; subst h; simp [injectedKeys]

/-- Updating any node with a class- and key-preserving transform
preserves every node in the `NodePres` sense. -/
theorem wfLookup_step_keysEq (wf : Workflow) (k : String) (f : Node → Node)
    (hf : ∀ nd, (f nd).class_type = nd.class_type ∧
        (f nd).inputs.map Prod.fst = nd.inputs.map Prod.fst)
    (id : String) (nd : Node) (hlk : wfLookup wf id = some nd) :
    ∃ nd', wfLookup (updateNode wf k f) id = some nd' ∧ NodePres nd nd' := by
  rw [wfLookup_updateNode]
  by_cases hik : id = k
  · rw [if_pos hik, hlk]
    exact ⟨f nd, rfl,
      ⟨(hf nd).1, fun _ => (hf nd).2, fun k' hk' => Or.inl ((hf nd).2 ▸ hk')⟩⟩
  · rw [if_neg hik, hlk]
    exact ⟨nd, rfl, NodePres.rfl nd⟩

/-- Updating the node found by an unconditional class with a transform
that adds at most the injectable parameter fields preserves every node
in the `NodePres` sense. -/
theorem wfLookup_step_found (wf : Workflow) (c k : String) (f : Node → Node)
    (hc : c ∈ unconditionalClasses)
    (hnodup : (wf.map Prod.fst).Nodup)
    (hfind : findNodeByClassType wf c = some k)
    (hf : ∀ nd, (f nd).class_type = nd.class_type ∧
        ∀ k', k' ∈ (f nd).inputs.map Prod.fst →
          k' ∈ nd.inputs.map Prod.fst ∨ k' ∈ injectedKeys)
    (id : String) (nd : Node) (hlk : wfLookup wf id = some nd) :
    ∃ nd', wfLookup (updateNode wf k f) id = some nd' ∧ NodePres nd nd' := by
  by_cases hik : id = k
  · subst hik
    obtain ⟨m, hm, hmc⟩ := findNodeByClassType_mem wf c id hfind
    have hl2 := wfLookup_eq_of_mem_nodup wf id m hnodup hm
    rw [hlk] at hl2
    injection hl2 with he
    have hcnd : nd.class_type ∈ unconditionalClasses := by
      rw [he, hmc]; exact hc
    refine ⟨f nd, ?_, ⟨(hf nd).1, fun hnot => absurd hcnd hnot, (hf nd).2⟩⟩
    rw [wfLookup_updateNode, if_pos rfl, hlk]
    rfl
  · refine ⟨nd, ?_, NodePres.rfl nd⟩
    rw [wfLookup_updateNode, if_neg hik, hlk]

/-- A workflow transformation that preserves node ids and every node in
the `NodePres` sense. -/
def StepPres (S : Workflow → Workflow) : Prop :=
  ∀ wf, (S wf).map Prod.fst = wf.map Prod.fst ∧
    (∀ id nd, (wf.map Prod.fst).Nodup → wfLookup wf id = some nd →
      ∃ nd', wfLookup (S wf) id = some nd' ∧ NodePres nd nd')

theorem StepPres.comp {S T : Workflow → Workflow}
    (hS : StepPres S) (hT : StepPres T) : StepPres (fun wf => T (S wf)) := by
  intro wf
  obtain ⟨hSk, hSl⟩ := hS wf
  obtain ⟨hTk, hTl⟩ := hT (S wf)
  refine ⟨by rw [hTk, hSk], ?_⟩
  intro id nd hnodup hlk
  obtain ⟨nd1, hl1, hp1⟩ := hSl id nd hnodup hlk
  obtain ⟨nd2, hl2, hp2⟩ := hTl id nd1 (by rw [hSk]; exact hnodup) hl1
  exact ⟨nd2, hl2, hp1.trans hp2⟩

/-- Identity transformations trivially preserve. -/
theorem stepPres_id_of_eq (S : Workflow → Workflow) (wf : Workflow)
    (h : S wf = wf) :
    ((S wf).map Prod.fst = wf.map Prod.fst) ∧
    (∀ id nd, (wf.map Prod.fst).Nodup → wfLookup wf id = some nd →
      ∃ nd', wfLookup (S wf) id = some nd' ∧ NodePres nd nd') := by
  rw [h]
  exact ⟨rfl, fun id nd _ hlk => ⟨nd, hlk, NodePres.rfl nd⟩⟩

theorem stepPres_pos (pos : String) : StepPres (fun wf => injectPosStep wf pos) := by
  intro wf
  simp only [injectPosStep]
  by_cases h : strTruthy (findPosNode wf) = true
  · rw [if_pos h]
    exact ⟨updateNode_keys _ _ _,
      fun id nd _ hlk => wfLookup_step_keysEq _ _ _ (injectText_pres pos) id nd hlk⟩
  · rw [if_neg h]
    exact ⟨rfl, fun id nd _ hlk => ⟨nd, hlk, NodePres.rfl nd⟩⟩

theorem stepPres_neg (posNode : Option String) (neg : String) :
    StepPres (fun wf => injectNegStep wf posNode neg) := by
  intro wf
  simp only [injectNegStep]
  by_cases h : (strTruthy (findNegNode wf posNode) && !neg.isEmpty) = true
  · rw [if_pos h]
    exact ⟨updateNode_keys _ _ _,
      fun id nd _ hlk => wfLookup_step_keysEq _ _ _ (injectText_pres neg) id nd hlk⟩
  · rw [if_neg h]
    exact ⟨rfl, fun id nd _ hlk => ⟨nd, hlk, NodePres.rfl nd⟩⟩

theorem stepPres_sampler (seed : Option Int) (steps : Int) (cfg : Rat)
    (denoise : Option Rat) :
    StepPres (fun wf => injectSamplerStep wf seed steps cfg denoise) := by
  intro wf
  simp only [injectSamplerStep]
  rcases hfind : findNodeByClassType wf "KSampler" with _ | sid
  · rw [if_neg (by simp [strTruthy])]
    exact ⟨rfl, fun id nd _ hlk => ⟨nd, hlk, NodePres.rfl nd⟩⟩
  · by_cases hs : strTruthy (some sid) = true
    · rw [if_pos hs]
      refine ⟨updateNode_keys _ _ _, ?_⟩
      intro id nd hnodup hlk
      exact wfLookup_step_found wf "KSampler" sid _ (by simp [unconditionalClasses])
        hnodup hfind (injectSampler_pres seed steps cfg denoise) id nd hlk
    · rw [if_neg hs]
      exact ⟨rfl, fun id nd _ hlk => ⟨nd, hlk, NodePres.rfl nd⟩⟩

theorem stepPres_latent (width height : Int) :
    StepPres (fun wf => injectLatentStep wf width height) := by
  intro wf
  simp only [injectLatentStep]
  by_cases ha : strTruthy (findNodeByClassType wf "EmptyLatentImage") = true
  · rw [if_pos ha]
    rcases hfind : findNodeByClassType wf "EmptyLatentImage" with _ | sid
    · rw [hfind] at ha
      simp [strTruthy] at ha
    · rw [hfind] at ha
      rw [if_pos ha]
      refine ⟨updateNode_keys _ _ _, ?_⟩
      intro id nd hnodup hlk
      exact wfLookup_step_found wf "EmptyLatentImage" sid _ (by simp [unconditionalClasses])
        hnodup hfind (injectLatent_pres width height) id nd hlk
  · rw [if_neg ha]
    rcases hfind : findNodeByClassType wf "EmptySD3LatentImage" with _ | sid
    · rw [if_neg (by simp [strTruthy])]
      exact ⟨rfl, fun id nd _ hlk => ⟨nd, hlk, NodePres.rfl nd⟩⟩
    · by_cases hs : strTruthy (some sid) = true
      · rw [if_pos hs]
        refine ⟨updateNode_keys _ _ _, ?_⟩
        intro id nd hnodup hlk
        exact wfLookup_step_found wf "EmptySD3LatentImage" sid _
          (by simp [unconditionalClasses])
          hnodup hfind (injectLatent_pres width height) id nd hlk
      · rw [if_neg hs]
        exact ⟨rfl, fun id nd _ hlk => ⟨nd, hlk, NodePres.rfl nd⟩⟩

theorem stepPres_load (uploaded : Option String) :
    StepPres (fun wf => injectLoadImageStep wf uploaded) := by
  intro wf
  simp only [injectLoadImageStep]
  by_cases hu : strTruthy uploaded = true
  · rw [if_pos hu]
    by_cases hl : strTruthy (findNodeByClassType wf "LoadImage") = true
    · rw [if_pos hl]
      exact ⟨updateNode_keys _ _ _,
        fun id nd _ hlk =>
          wfLookup_step_keysEq _ _ _ (injectLoadImage_pres (uploaded.getD "")) id nd hlk⟩
    · rw [if_neg hl]
      exact ⟨rfl, fun id nd _ hlk => ⟨nd, hlk, NodePres.rfl nd⟩⟩
  · rw [if_neg hu]
    exact ⟨rfl, fun id nd _ hlk => ⟨nd, hlk, NodePres.rfl nd⟩⟩

theorem stepPres_switch (mode : String) :
    StepPres (fun wf => injectSwitchStep wf mode) := by
  intro wf
  simp only [injectSwitchStep]
  by_cases hs : strTruthy (if strTruthy (findNodeByClassType wf "AnySwitch")
      then findNodeByClassType wf "AnySwitch"
      else findNodeByClassType wf "Primitive") = true
  · rw [if_pos hs]
    exact ⟨updateNode_keys _ _ _,
      fun id nd _ hlk => wfLookup_step_keysEq _ _ _ (injectSwitch_pres mode) id nd hlk⟩
  · rw [if_neg hs]
    exact ⟨rfl, fun id nd _ hlk => ⟨nd, hlk, NodePres.rfl nd⟩⟩

theorem stepPres_qwen (pos : String) :
    StepPres (fun wf => injectQwenStep wf pos) := by
  intro wf
  simp only [injectQwenStep]
  by_cases h : strTruthy (findNodeByClassType wf "Qwen2-VL-Instruct") = true
  · rw [if_pos h]
    exact ⟨updateNode_keys _ _ _,
      fun id nd _ hlk => wfLookup_step_keysEq _ _ _ (injectQwen_pres pos) id nd hlk⟩
  · rw [if_neg h]
    exact ⟨rfl, fun id nd _ hlk => ⟨nd, hlk, NodePres.rfl nd⟩⟩

theorem stepPres_guidance (cfg : Rat) :
    StepPres (fun wf => injectGuidanceStep wf cfg) := by
  intro wf
  simp only [injectGuidanceStep]
  by_cases h : strTruthy (findNodeByClassType wf "FluxGuidance") = true
  · rw [if_pos h]
    exact ⟨updateNode_keys _ _ _,
      fun id nd _ hlk => wfLookup_step_keysEq _ _ _ (injectGuidance_pres cfg) id nd hlk⟩
  · rw [if_neg h]
    exact ⟨rfl, fun id nd _ hlk => ⟨nd, hlk, NodePres.rfl nd⟩⟩

/-! ## Claim theorems: parameter injection -/

/-- A workflow holding one sampler node with no input fields at all. -/
def cex1Wf : Workflow := [("1", { class_type := "KSampler", inputs := [] })]

/-- C1 counterexample: injection introduces the new fields `steps` and
`cfg` into a sampler node that had neither — field mutation is not
gated on presence for sampler nodes. -/
theorem inject_adds_sampler_fields_cex :
    (wfLookup cex1Wf "1").map (fun nd => nd.inputs.map Prod.fst) = some [] ∧
    (wfLookup (injectParameters cex1Wf "a cat" "" none 28 (7/2 : Rat)
        1024 1024 none none "T2I") "1").map (fun nd => nd.inputs.map Prod.fst) =
      some ["steps", "cfg"] := by
  exact ⟨rfl, by decide⟩

/-- C1 amended: parameter injection never introduces a new input field
into any node other than the sampler (`KSampler`) and size-spec
(`EmptyLatentImage`/`EmptySD3LatentImage`) nodes, whose parameter
fields are assigned unconditionally; even there, the only fields that
can be introduced are `seed`/`steps`/`cfg`/`denoise`/`width`/`height`.
Classes are never changed. -/
theorem inject_only_adds_unconditional_param_fields
    (wf : Workflow) (pos neg : String) (seed : Option Int) (steps : Int)
    (cfg : Rat) (width height : Int) (uploaded : Option String)
    (denoise : Option Rat) (mode : String) (id : String) (nd : Node)
    (hnodup : (wf.map Prod.fst).Nodup)
    (hlk : wfLookup wf id = some nd) :
    ∃ nd', wfLookup (injectParameters wf pos neg seed steps cfg width height
        uploaded denoise mode) id = some nd' ∧
      nd'.class_type = nd.class_type ∧
      (nd.class_type ∉ unconditionalClasses →
        nd'.inputs.map Prod.fst = nd.inputs.map Prod.fst) ∧
      (∀ k', k' ∈ nd'.inputs.map Prod.fst →
        k' ∈ nd.inputs.map Prod.fst ∨ k' ∈ injectedKeys) := by
  have hcomp := (((((((stepPres_pos pos).comp
    (stepPres_neg (findPosNode wf) neg)).comp
    (stepPres_sampler seed steps cfg denoise)).comp
    (stepPres_latent width height)).comp
    (stepPres_load uploaded)).comp
    (stepPres_switch mode)).comp
    (stepPres_qwen pos)).comp
    (stepPres_guidance cfg)
  obtain ⟨_, hl⟩ := hcomp wf
  obtain ⟨nd', hlk', hpres⟩ := hl id nd hnodup hlk
  exact ⟨nd', hlk', hpres.1, hpres.2.1, hpres.2.2⟩

/-- Witness for C1 at a workflow with one text-encoder node and one
bare sampler node. -/
def wit1Wf : Workflow :=
  [("1", { class_type := "CLIPTextEncode", inputs := [("text", .vstr "old")] }),
   ("2", { class_type := "KSampler", inputs := [] })]

theorem inject_only_adds_unconditional_param_fields_witness :
    ∃ nd', wfLookup (injectParameters wit1Wf "a cat" "ugly" (some 7) 20 (1 : Rat)
        512 512 none none "T2I") "1" = some nd' ∧
      nd'.class_type = "CLIPTextEncode" ∧
      ("CLIPTextEncode" ∉ unconditionalClasses →
        nd'.inputs.map Prod.fst = [("text", JVal.vstr "old")].map Prod.fst) ∧
      (∀ k', k' ∈ nd'.inputs.map Prod.fst →
        k' ∈ [("text", JVal.vstr "old")].map Prod.fst ∨ k' ∈ injectedKeys) :=
  inject_only_adds_unconditional_param_fields wit1Wf "a cat" "ugly" (some 7) 20
    (1 : Rat) 512 512 none none "T2I" "1"
    { class_type := "CLIPTextEncode", inputs := [("text", .vstr "old")] }
    (by decide) rfl

/-! ## Lemmas for the two-encoder routing claim -/

theorem findNode_append_of_none (A L : Workflow) (c : String)
    (hA : ∀ p ∈ A, p.2.class_type ≠ c) :
    findNodeByClassType (A ++ L) c = findNodeByClassType L c := by
  induction A with
  | nil => rfl
  | cons q t ih =>
      have hq : q.2.class_type ≠ c := hA q (by simp)
      simp only [List.cons_append, findNodeByClassType, if_neg hq]
      exact ih (fun p hp => hA p (by simp [hp]))

theorem findNode_eq_none (L : Workflow) (c : String)
    (h : ∀ p ∈ L, p.2.class_type ≠ c) :
    findNodeByClassType L c = none := by
  induction L with
  | nil => rfl
  | cons q t ih =>
      simp only [findNodeByClassType, if_neg (h q (by simp))]
      exact ih (fun p hp => h p (by simp [hp]))

theorem findNeg_append_of_skip (A L : Workflow) (posId : Option String)
    (hA : ∀ p ∈ A, ¬(p.2.class_type ∈ textEncodeTypes ∧ posId ≠ some p.1)) :
    findNegNode (A ++ L) posId = findNegNode L posId := by
  induction A with
  | nil => rfl
  | cons q t ih =>
      simp only [List.cons_append, findNegNode, if_neg (hA q (by simp))]
      exact ih (fun p hp => hA p (by simp [hp]))

theorem updateNode_append (L1 L2 : Workflow) (k : String) (f : Node → Node) :
    updateNode (L1 ++ L2) k f = updateNode L1 k f ++ updateNode L2 k f := by
  simp [updateNode]

theorem updateNode_of_not_mem (L : Workflow) (k : String) (f : Node → Node)
    (h : k ∉ L.map Prod.fst) :
    updateNode L k f = L := by
  induction L with
  | nil => rfl
  | cons q t ih =>
      simp only [List.map_cons, List.mem_cons] at h
      push_neg at h
      simp only [updateNode, List.map_cons, if_neg (fun he : q.1 = k => h.1 he.symm)]
      have := ih h.2
      simp only [updateNode] at this
      rw [this]

theorem wfLookup_append_of_not_mem (A L : Workflow) (id : String)
    (h : id ∉ A.map Prod.fst) :
    wfLookup (A ++ L) id = wfLookup L id := by
  induction A with
  | nil => rfl
  | cons q t ih =>
      simp only [List.map_cons, List.mem_cons] at h
      push_neg at h
      simp only [List.cons_append, wfLookup, if_neg (fun he : q.1 = id => h.1 he.symm)]
      exact ih h.2

/-- An encoder class differs from every class the later injection steps
search for. -/
theorem encoder_class_ne (s : String) (h : s ∈ textEncodeTypes) :
    s ≠ "KSampler" ∧ s ≠ "EmptyLatentImage" ∧ s ≠ "EmptySD3LatentImage" ∧
    s ≠ "LoadImage" ∧ s ≠ "AnySwitch" ∧ s ≠ "Primitive" ∧
    s ≠ "Qwen2-VL-Instruct" ∧ s ≠ "FluxGuidance" := by
  simp only [textEncodeTypes, List.mem_cons, List.not_mem_nil, or_false] at h
  rcases h with h | h | h <;> subst h <;>
    exact ⟨by decide, by decide, by decide, by decide, by decide, by decide,
      by decide, by decide⟩

theorem samplerStep_untouched (w : Workflow) (seed : Option Int) (steps : Int)
    (cfg : Rat) (denoise : Option Rat) (hnodup : (w.map Prod.fst).Nodup)
    (id : String) (nd : Node) (hlk : wfLookup w id = some nd)
    (hc : nd.class_type ≠ "KSampler") :
    wfLookup (injectSamplerStep w seed steps cfg denoise) id = some nd := by
  simp only [injectSamplerStep]
  rcases hfind : findNodeByClassType w "KSampler" with _ | sid
  · rw [if_neg (by simp [strTruthy])]
    exact hlk
  · by_cases hs : strTruthy (some sid) = true
    · rw [if_pos hs]
      exact wfLookup_updateNode_found_ne w "KSampler" sid _ hnodup hfind id nd hlk hc
    · rw [if_neg hs]
      exact hlk

theorem latentStep_untouched (w : Workflow) (width height : Int)
    (hnodup : (w.map Prod.fst).Nodup)
    (id : String) (nd : Node) (hlk : wfLookup w id = some nd)
    (hc1 : nd.class_type ≠ "EmptyLatentImage")
    (hc2 : nd.class_type ≠ "EmptySD3LatentImage") :
    wfLookup (injectLatentStep w width height) id = some nd := by
  simp only [injectLatentStep]
  by_cases ha : strTruthy (findNodeByClassType w "EmptyLatentImage") = true
  · rw [if_pos ha]
    rcases hfind : findNodeByClassType w "EmptyLatentImage" with _ | sid
    · rw [hfind] at ha
      simp [strTruthy] at ha
    · rw [hfind] at ha
      rw [if_pos ha]
      exact wfLookup_updateNode_found_ne w "EmptyLatentImage" sid _ hnodup hfind id nd hlk hc1
  · rw [if_neg ha]
    rcases hfind : findNodeByClassType w "EmptySD3LatentImage" with _ | sid
    · rw [if_neg (by simp [strTruthy])]
      exact hlk
    · by_cases hs : strTruthy (some sid) = true
      · rw [if_pos hs]
        exact wfLookup_updateNode_found_ne w "EmptySD3LatentImage" sid _ hnodup hfind
          id nd hlk hc2
      · rw [if_neg hs]
        exact hlk

theorem loadStep_untouched (w : Workflow) (uploaded : Option String)
    (hnodup : (w.map Prod.fst).Nodup)
    (id : String) (nd : Node) (hlk : wfLookup w id = some nd)
    (hc : nd.class_type ≠ "LoadImage") :
    wfLookup (injectLoadImageStep w uploaded) id = some nd := by
  simp only [injectLoadImageStep]
  by_cases hu : strTruthy uploaded = true
  · rw [if_pos hu]
    rcases hfind : findNodeByClassType w "LoadImage" with _ | sid
    · rw [if_neg (by simp [strTruthy])]
      exact hlk
    · by_cases hs : strTruthy (some sid) = true
      · rw [if_pos hs]
        exact wfLookup_updateNode_found_ne w "LoadImage" sid _ hnodup hfind id nd hlk hc
      · rw [if_neg hs]
        exact hlk
  · rw [if_neg hu]
    exact hlk

theorem switchStep_untouched (w : Workflow) (mode : String)
    (hnodup : (w.map Prod.fst).Nodup)
    (id : String) (nd : Node) (hlk : wfLookup w id = some nd)
    (hc1 : nd.class_type ≠ "AnySwitch") (hc2 : nd.class_type ≠ "Primitive") :
    wfLookup (injectSwitchStep w mode) id = some nd := by
  simp only [injectSwitchStep]
  by_cases ha : strTruthy (findNodeByClassType w "AnySwitch") = true
  · rw [if_pos ha]
    rcases hfind : findNodeByClassType w "AnySwitch" with _ | sid
    · rw [hfind] at ha
      simp [strTruthy] at ha
    · rw [hfind] at ha
      rw [if_pos ha]
      exact wfLookup_updateNode_found_ne w "AnySwitch" sid _ hnodup hfind id nd hlk hc1
  · rw [if_neg ha]
    rcases hfind : findNodeByClassType w "Primitive" with _ | sid
    · rw [if_neg (by simp [strTruthy])]
      exact hlk
    · by_cases hs : strTruthy (some sid) = true
      · rw [if_pos hs]
        exact wfLookup_updateNode_found_ne w "Primitive" sid _ hnodup hfind id nd hlk hc2
      · rw [if_neg hs]
        exact hlk

theorem qwenStep_untouched (w : Workflow) (pos : String)
    (hnodup : (w.map Prod.fst).Nodup)
    (id : String) (nd : Node) (hlk : wfLookup w id = some nd)
    (hc : nd.class_type ≠ "Qwen2-VL-Instruct") :
    wfLookup (injectQwenStep w pos) id = some nd := by
  simp only [injectQwenStep]
  rcases hfind : findNodeByClassType w "Qwen2-VL-Instruct" with _ | sid
  · rw [if_neg (by simp [strTruthy])]
    exact hlk
  · by_cases hs : strTruthy (some sid) = true
    · rw [if_pos hs]
      exact wfLookup_updateNode_found_ne w "Qwen2-VL-Instruct" sid _ hnodup hfind
        id nd hlk hc
    · rw [if_neg hs]
      exact hlk

theorem guidanceStep_untouched (w : Workflow) (cfg : Rat)
    (hnodup : (w.map Prod.fst).Nodup)
    (id : String) (nd : Node) (hlk : wfLookup w id = some nd)
    (hc : nd.class_type ≠ "FluxGuidance") :
    wfLookup (injectGuidanceStep w cfg) id = some nd := by
  simp only [injectGuidanceStep]
  rcases hfind : findNodeByClassType w "FluxGuidance" with _ | sid
  · rw [if_neg (by simp [strTruthy])]
    exact hlk
  · by_cases hs : strTruthy (some sid) = true
    · rw [if_pos hs]
      exact wfLookup_updateNode_found_ne w "FluxGuidance" sid _ hnodup hfind id nd hlk hc
    · rw [if_neg hs]
      exact hlk

/-- The six trailing injection steps (sampler through FluxGuidance)
leave every text-encoder node exactly as it was. -/
theorem tailSteps_untouched (w : Workflow) (seed : Option Int) (steps : Int)
    (cfg : Rat) (width height : Int) (uploaded : Option String)
    (denoise : Option Rat) (mode pos : String)
    (hnodup : (w.map Prod.fst).Nodup)
    (id : String) (nd : Node) (hlk : wfLookup w id = some nd)
    (hcls : nd.class_type ∈ textEncodeTypes) :
    wfLookup (injectGuidanceStep (injectQwenStep (injectSwitchStep
      (injectLoadImageStep (injectLatentStep
        (injectSamplerStep w seed steps cfg denoise) width height)
        uploaded) mode) pos) cfg) id = some nd := by
  obtain ⟨e1, e2, e3, e4, e5, e6, e7, e8⟩ := encoder_class_ne nd.class_type hcls
  have k3 := ((stepPres_sampler seed steps cfg denoise) w).1
  have l3 := samplerStep_untouched w seed steps cfg denoise hnodup id nd hlk e1
  have n3 : ((injectSamplerStep w seed steps cfg denoise).map Prod.fst).Nodup := by
    rw [k3]; exact hnodup
  have k4 := ((stepPres_latent width height) (injectSamplerStep w seed steps cfg denoise)).1
  have l4 := latentStep_untouched _ width height n3 id nd l3 e2 e3
  have n4 : ((injectLatentStep (injectSamplerStep w seed steps cfg denoise)
      width height).map Prod.fst).Nodup := by
    rw [k4]; exact n3
  have k5 := ((stepPres_load uploaded)
    (injectLatentStep (injectSamplerStep w seed steps cfg denoise) width height)).1
  have l5 := loadStep_untouched _ uploaded n4 id nd l4 e4
  have n5 : ((injectLoadImageStep (injectLatentStep (injectSamplerStep w seed steps
      cfg denoise) width height) uploaded).map Prod.fst).Nodup := by
    rw [k5]; exact n4
  have k6 := ((stepPres_switch mode)
    (injectLoadImageStep (injectLatentStep (injectSamplerStep w seed steps cfg denoise)
      width height) uploaded)).1
  have l6 := switchStep_untouched _ mode n5 id nd l5 e5 e6
  have n6 : ((injectSwitchStep (injectLoadImageStep (injectLatentStep
      (injectSamplerStep w seed steps cfg denoise) width height) uploaded)
      mode).map Prod.fst).Nodup := by
    rw [k6]; exact n5
  have l7 := qwenStep_untouched _ pos n6 id nd l6 e7
  have n7 : ((injectQwenStep (injectSwitchStep (injectLoadImageStep (injectLatentStep
      (injectSamplerStep w seed steps cfg denoise) width height) uploaded) mode)
      pos).map Prod.fst).Nodup := by
    rw [((stepPres_qwen pos)
      (injectSwitchStep (injectLoadImageStep (injectLatentStep
        (injectSamplerStep w seed steps cfg denoise) width height) uploaded) mode)).1]
    exact n6
  exact guidanceStep_untouched _ cfg n7 id nd l7 e8

theorem updateNode_cons (p : String × Node) (L : Workflow) (k : String) (f : Node → Node) :
    updateNode (p :: L) k f =
      (if p.1 = k then (p.1, f p.2) else p) :: updateNode L k f := rfl

/-! ## Claim theorems: parameter routing of the two prompts -/

/-- A workflow whose first encoder (graph order) is a plain
`CLIPTextEncode` and whose second is the SDXL variant. -/
def cex6Wf : Workflow :=
  [("1", { class_type := "CLIPTextEncode", inputs := [("text", .vstr "old1")] }),
   ("2", { class_type := "CLIPTextEncodeSDXL", inputs := [("text", .vstr "old2")] })]

/-- C6 counterexample: with two text-encoder nodes of different types,
the positive role is chosen by encoder-type priority (SDXL first), not
by graph iteration order — the first node encountered in iteration
order ends up holding the negative prompt. -/
theorem inject_type_priority_overrides_graph_order_cex :
    (wfLookup (injectParameters cex6Wf "POS" "NEG" none 28 (7/2 : Rat)
        1024 1024 none none "T2I") "1").map (fun nd => dictGet nd.inputs "text") =
      some (some (.vstr "NEG")) ∧
    (wfLookup (injectParameters cex6Wf "POS" "NEG" none 28 (7/2 : Rat)
        1024 1024 none none "T2I") "2").map (fun nd => dictGet nd.inputs "text") =
      some (some (.vstr "POS")) ∧
    JVal.vstr "NEG" ≠ JVal.vstr "POS" := by
  refine ⟨by decide, by decide, by decide⟩

/-- C6 amended: for a workflow whose only text-encoder nodes are two
nodes of the same encoder type, both exposing a `text` field, with
distinct nonempty ids and a nonempty negative prompt, injection sets the
first encountered node's text to the positive prompt and the second,
subsequent distinct node's text to the negative prompt.  (When the two
encoders have different types, the positive role is instead picked by
type priority — see the counterexample.) -/
theorem inject_two_same_type_encoders_pos_neg
    (A B C : Workflow) (id1 id2 : String) (n1 n2 : Node) (t : String)
    (pos neg : String) (seed : Option Int) (steps : Int) (cfg : Rat)
    (width height : Int) (uploaded : Option String) (denoise : Option Rat)
    (mode : String)
    (hA : ∀ p ∈ A, p.2.class_type ∉ textEncodeTypes)
    (hB : ∀ p ∈ B, p.2.class_type ∉ textEncodeTypes)
    (hC : ∀ p ∈ C, p.2.class_type ∉ textEncodeTypes)
    (ht : t ∈ textEncodeTypes)
    (h1c : n1.class_type = t) (h2c : n2.class_type = t)
    (h1t : dictContains n1.inputs "text" = true)
    (h2t : dictContains n2.inputs "text" = true)
    (hneg : neg ≠ "") (hid1 : id1 ≠ "") (hid2 : id2 ≠ "")
    (hnodup : ((A ++ (id1, n1) :: (B ++ (id2, n2) :: C)).map Prod.fst).Nodup) :
    (∃ nd1, wfLookup (injectParameters (A ++ (id1, n1) :: (B ++ (id2, n2) :: C))
        pos neg seed steps cfg width height uploaded denoise mode) id1 = some nd1 ∧
      dictGet nd1.inputs "text" = some (.vstr pos)) ∧
    (∃ nd2, wfLookup (injectParameters (A ++ (id1, n1) :: (B ++ (id2, n2) :: C))
        pos neg seed steps cfg width height uploaded denoise mode) id2 = some nd2 ∧
      dictGet nd2.inputs "text" = some (.vstr neg)) := by
  set wf := A ++ (id1, n1) :: (B ++ (id2, n2) :: C) with hwfdef
  -- dissect the distinct-ids hypothesis
  have hkeys : wf.map Prod.fst =
      A.map Prod.fst ++ id1 :: (B.map Prod.fst ++ id2 :: C.map Prod.fst) := by
    rw [hwfdef]; simp
  rw [hkeys] at hnodup
  have hnodupKeys := hnodup
  rw [List.nodup_append] at hnodup
  obtain ⟨hkA, hrest, hdisj1⟩ := hnodup
  rw [List.nodup_cons] at hrest
  obtain ⟨h1mem, hrest2⟩ := hrest
  simp only [List.mem_append, List.mem_cons] at h1mem
  push_neg at h1mem
  obtain ⟨h1B, h1id2, h1C⟩ := h1mem
  rw [List.nodup_append] at hrest2
  obtain ⟨hkB, hrest3, hdisj2⟩ := hrest2
  rw [List.nodup_cons] at hrest3
  obtain ⟨h2C, hkC⟩ := hrest3
  have h2B : id2 ∉ B.map Prod.fst := fun hm => hdisj2 hm (by simp)
  have h1A : id1 ∉ A.map Prod.fst := fun hm => hdisj1 hm (by simp)
  have h2A : id2 ∉ A.map Prod.fst := fun hm => hdisj1 hm (by simp)
  -- encoder-class searches
  have hAne : ∀ ty ∈ textEncodeTypes, ∀ p ∈ A, p.2.class_type ≠ ty :=
    fun ty hty p hp he => hA p hp (he ▸ hty)
  have hBne : ∀ ty ∈ textEncodeTypes, ∀ p ∈ B, p.2.class_type ≠ ty :=
    fun ty hty p hp he => hB p hp (he ▸ hty)
  have hCne : ∀ ty ∈ textEncodeTypes, ∀ p ∈ C, p.2.class_type ≠ ty :=
    fun ty hty p hp he => hC p hp (he ▸ hty)
  have hfind_t : findNodeByClassType wf t = some id1 := by
    rw [hwfdef, findNode_append_of_none A _ t (hAne t ht)]
    simp only [findNodeByClassType, if_pos h1c]
  have hfind_ne : ∀ ty ∈ textEncodeTypes, ty ≠ t → findNodeByClassType wf ty = none := by
    intro ty hty htyne
    rw [hwfdef]
    apply findNode_eq_none
    intro p hp
    simp only [List.mem_append, List.mem_cons] at hp
    rcases hp with h | h | h | h | h
    · exact hAne ty hty p h
    · subst h
      show n1.class_type ≠ ty
      rw [h1c]; exact Ne.symm htyne
    · exact hBne ty hty p h
    · subst h
      show n2.class_type ≠ ty
      rw [h2c]; exact Ne.symm htyne
    · exact hCne ty hty p h
  have htmem := ht
  simp only [textEncodeTypes, List.mem_cons, List.not_mem_nil, or_false] at htmem
  have hPos : findPosNode wf = some id1 := by
    simp only [findPosNode]
    rcases htmem with h | h | h
    · subst h
      rw [hfind_t, if_pos (strTruthy_some_of_ne id1 hid1)]
    · subst h
      rw [hfind_ne "CLIPTextEncodeSDXL" (by decide) (by decide)]
      rw [if_neg (by simp [strTruthy])]
      rw [hfind_t, if_pos (strTruthy_some_of_ne id1 hid1)]
    · subst h
      rw [hfind_ne "CLIPTextEncodeSDXL" (by decide) (by decide)]
      rw [if_neg (by simp [strTruthy])]
      rw [hfind_ne "CLIPTextEncodeSDXLRefiner" (by decide) (by decide)]
      rw [if_neg (by simp [strTruthy])]
      exact hfind_t
  -- the two text injections
  have hInj1 : injectText pos n1 =
      { n1 with inputs := dictSet n1.inputs "text" (.vstr pos) } := by
    unfold injectText
    rw [if_pos h1t]
  have hInj2 : injectText neg n2 =
      { n2 with inputs := dictSet n2.inputs "text" (.vstr neg) } := by
    unfold injectText
    rw [if_pos h2t]
  have hwf1 : injectPosStep wf pos =
      A ++ (id1, injectText pos n1) :: (B ++ (id2, n2) :: C) := by
    simp only [injectPosStep]
    rw [hPos, if_pos (strTruthy_some_of_ne id1 hid1)]
    show updateNode wf id1 (injectText pos) = _
    rw [hwfdef, updateNode_append, updateNode_of_not_mem A id1 _ h1A,
      updateNode_cons, if_pos rfl, updateNode_append,
      updateNode_of_not_mem B id1 _ h1B, updateNode_cons,
      if_neg (fun he : (id2, n2).1 = id1 => h1id2 he.symm),
      updateNode_of_not_mem C id1 _ h1C]
  have hNeg : findNegNode (A ++ (id1, injectText pos n1) :: (B ++ (id2, n2) :: C))
      (some id1) = some id2 := by
    rw [findNeg_append_of_skip A _ _ (fun p hp hcond => hA p hp hcond.1)]
    simp only [findNegNode]
    rw [if_neg (fun hcond => hcond.2 rfl)]
    rw [findNeg_append_of_skip B _ _ (fun p hp hcond => hB p hp hcond.1)]
    simp only [findNegNode]
    rw [if_pos ⟨by show n2.class_type ∈ textEncodeTypes; rw [h2c]; exact ht,
      fun he => h1id2 (Option.some.inj he)⟩]
  have hwf2 : injectNegStep (A ++ (id1, injectText pos n1) :: (B ++ (id2, n2) :: C))
      (some id1) neg =
      A ++ (id1, injectText pos n1) :: (B ++ (id2, injectText neg n2) :: C) := by
    simp only [injectNegStep]
    rw [hNeg]
    have hngB : (!neg.isEmpty) = true := strTruthy_some_of_ne neg hneg
    rw [if_pos (by rw [Bool.and_eq_true]
                   exact ⟨strTruthy_some_of_ne id2 hid2, hngB⟩)]
    show updateNode _ id2 (injectText neg) = _
    rw [updateNode_append, updateNode_of_not_mem A id2 _ h2A,
      updateNode_cons, if_neg (fun he : (id1, injectText pos n1).1 = id2 => h1id2 he),
      updateNode_append, updateNode_of_not_mem B id2 _ h2B,
      updateNode_cons, if_pos rfl,
      updateNode_of_not_mem C id2 _ h2C]
  have hfull : injectParameters wf pos neg seed steps cfg width height uploaded
      denoise mode =
      injectGuidanceStep (injectQwenStep (injectSwitchStep (injectLoadImageStep
        (injectLatentStep (injectSamplerStep
          (A ++ (id1, injectText pos n1) :: (B ++ (id2, injectText neg n2) :: C))
          seed steps cfg denoise) width height) uploaded) mode) pos) cfg := by
    simp only [injectParameters]
    rw [hPos, hwf1, hwf2]
  have hkeys2 : (A ++ (id1, injectText pos n1) :: (B ++ (id2, injectText neg n2) :: C)).map
      Prod.fst = A.map Prod.fst ++ id1 :: (B.map Prod.fst ++ id2 :: C.map Prod.fst) := by
    simp
  have hnodup2 : ((A ++ (id1, injectText pos n1) :: (B ++ (id2, injectText neg n2) :: C)).map Prod.fst).Nodup := by
    rw [hkeys2]; exact hnodupKeys
  have hlk1 : wfLookup (A ++ (id1, injectText pos n1) :: (B ++ (id2, injectText neg n2) :: C)) id1 = some (injectText pos n1) := by
    rw [wfLookup_append_of_not_mem A _ id1 h1A]
    simp [wfLookup]
  have hlk2 : wfLookup (A ++ (id1, injectText pos n1) :: (B ++ (id2, injectText neg n2) :: C)) id2 = some (injectText neg n2) := by
    rw [wfLookup_append_of_not_mem A _ id2 h2A]
    simp only [wfLookup, if_neg (fun he : id1 = id2 => h1id2 he)]
    rw [wfLookup_append_of_not_mem B _ id2 h2B]
    simp [wfLookup]
  have hcls1 : (injectText pos n1).class_type ∈ textEncodeTypes := by
    rw [(injectText_pres pos n1).1, h1c]; exact ht
  have hcls2 : (injectText neg n2).class_type ∈ textEncodeTypes := by
    rw [(injectText_pres neg n2).1, h2c]; exact ht
  constructor
  · refine ⟨injectText pos n1, ?_, ?_⟩
    · rw [hfull]
      exact tailSteps_untouched _ seed steps cfg width height uploaded denoise mode pos
        hnodup2 id1 _ hlk1 hcls1
    · rw [hInj1]
      exact dictGet_dictSet _ _ _
  · refine ⟨injectText neg n2, ?_, ?_⟩
    · rw [hfull]
      exact tailSteps_untouched _ seed steps cfg width height uploaded denoise mode pos
        hnodup2 id2 _ hlk2 hcls2
    · rw [hInj2]
      exact dictGet_dictSet _ _ _

/-- Witness for C6 at a two-node workflow of same-type encoders. -/
def wit6n1 : Node := { class_type := "CLIPTextEncode", inputs := [("text", .vstr "o1")] }

def wit6n2 : Node := { class_type := "CLIPTextEncode", inputs := [("text", .vstr "o2")] }

theorem inject_two_same_type_encoders_witness :
    (∃ nd1, wfLookup (injectParameters
        ([] ++ ("e1", wit6n1) :: ([] ++ ("e2", wit6n2) :: []))
        "POS" "NEG" none 28 (1 : Rat) 1024 1024 none none "T2I") "e1" = some nd1 ∧
      dictGet nd1.inputs "text" = some (.vstr "POS")) ∧
    (∃ nd2, wfLookup (injectParameters
        ([] ++ ("e1", wit6n1) :: ([] ++ ("e2", wit6n2) :: []))
        "POS" "NEG" none 28 (1 : Rat) 1024 1024 none none "T2I") "e2" = some nd2 ∧
      dictGet nd2.inputs "text" = some (.vstr "NEG")) :=
  inject_two_same_type_encoders_pos_neg [] [] [] "e1" "e2" wit6n1 wit6n2
    "CLIPTextEncode" "POS" "NEG" none 28 (1 : Rat) 1024 1024 none none "T2I"
    (by simp) (by simp) (by simp) (by decide) rfl rfl (by decide) (by decide)
    (by decide) (by decide) (by decide) (by decide)

/-! ## Claim theorems: completion waiter -/

/-- A backend that reports the terminal `"error"` status on every poll
(the history record even carries an outputs section, which an
error-handling wait must never fetch). -/
def errorStatusResp : Nat → PollResp := fun _ =>
  .hist (some { status := some "error", errMsg := some "node failed",
                outputs := some [("9", { images := some [⟨"a.png", "", "output"⟩] })] })

/-- C2 (code bug): on a terminal `"Error"` status the poll body does
raise the descriptive `ComfyUI execution error` exception the claim
describes, but the loop's generic `except Exception: continue` handler
swallows it, so the wait keeps polling and ends in `TimeoutError`
instead of a backend-execution failure.  No artifact retrieval is
performed (that part of the claim holds). -/
theorem error_status_swallowed_until_timeout :
    pollBodyInner (errorStatusResp 0) =
      .error (.exn "ComfyUI execution error: node failed") ∧
    pollStep (errorStatusResp 0) = .cont ∧
    waitPoll errorStatusResp (ticksFor 2) = ⟨.timeout, 4, 0⟩ := by
  refine ⟨rfl, rfl, by decide⟩

/-- C3: when no poll before the deadline observes a terminal status, the
wait polls exactly once per 0.5 s interval, raises the distinct
`TimeoutError` outcome when the deadline (default 300 s) elapses, and
performs no poll and no artifact retrieval afterwards: the number of
polls equals the deadline divided by the interval, exactly. -/
theorem poll_mode_times_out_at_deadline (resp : Nat → PollResp) (tS : Nat)
    (h : ∀ k, k < ticksFor tS → pollStep (resp k) = .cont) :
    waitPoll resp (ticksFor tS) = ⟨.timeout, ticksFor tS, 0⟩ ∧
    (ticksFor tS) * pollIntervalMs = tS * 1000 ∧
    pollIntervalMs = 500 ∧ defaultTimeoutS = 300 := by
  refine ⟨?_, ?_, rfl, rfl⟩
  · exact pollLoopAux_all_cont resp (ticksFor tS) 0
      (fun j _ hj2 => h j (by omega))
  · show (tS * 1000 / 500) * 500 = tS * 1000
    have h2 : tS * 1000 = (2 * tS) * 500 := by ring
    rw [h2, Nat.mul_div_cancel _ (by norm_num)]

/-- Witness for C3 at a concrete backend that never reports a terminal
status, with a 1-second deadline (2 polls at 0.5 s). -/
theorem poll_mode_times_out_at_deadline_witness :
    waitPoll (fun _ => PollResp.hist none) (ticksFor 1) = ⟨.timeout, ticksFor 1, 0⟩ ∧
    (ticksFor 1) * pollIntervalMs = 1 * 1000 ∧
    pollIntervalMs = 500 ∧ defaultTimeoutS = 300 :=
  poll_mode_times_out_at_deadline (fun _ => PollResp.hist none) 1 (fun _ _ => rfl)

/-- C4: push mode is attempted first when available (`wsAttempts = 1`);
when establishing or using the push channel raises, the waiter runs the
poll loop instead, the push failure is never surfaced (the caller sees
exactly the poll-mode result), the downgrade is never reverted
(`wsAttempts ≤ 1` on every execution), and the final output fetch
happens exactly once: one poll, one artifact call per descriptor. -/
theorem push_error_downgrades_once_to_poll (msg : String)
    (resp : Nat → PollResp) (t : Nat) (imgs : List ImageRef)
    (h0 : pollStep (resp 0) = .done imgs) :
    waitForCompletion true (.wsRaise msg) resp (t + 1) =
      ⟨.images imgs, 1, imgs.length, 1⟩ ∧
    (∀ (avail : Bool) (ws : WsOutcome) (r : Nat → PollResp) (n : Nat),
        (waitForCompletion avail ws r n).wsAttempts ≤ 1) ∧
    (∀ (m : String) (r : Nat → PollResp) (n : Nat),
        (waitForCompletion true (.wsRaise m) r n).result = (waitPoll r n).result) := by
  refine ⟨?_, ?_, ?_⟩
  · simp [waitForCompletion, waitPoll, pollLoopAux, h0]
  · intro avail ws r n
    cases avail with
    | false => simp [waitForCompletion]
    | true =>
        cases ws with
        | wsRaise m => simp [waitForCompletion]
        | wsFetched h =>
            cases h with
            | ok hh => simp [waitForCompletion]
            | error e => simp [waitForCompletion]
  · intro m r n
    rfl

/-- A backend whose very first poll reports one finished output image. -/
def readyFirstPollResp : Nat → PollResp := fun _ =>
  .hist (some { status := none, errMsg := none,
                outputs := some [("9", { images := some [⟨"out.png", "", "output"⟩] })] })

/-- Witness for C4: a push channel that raises on connect, and a backend
whose first poll already carries one output image. -/
theorem push_error_downgrades_once_to_poll_witness :
    waitForCompletion true (.wsRaise "Connection refused") readyFirstPollResp (599 + 1) =
      ⟨.images [⟨"out.png", "", "output"⟩], 1, 1, 1⟩ ∧
    (∀ (avail : Bool) (ws : WsOutcome) (r : Nat → PollResp) (n : Nat),
        (waitForCompletion avail ws r n).wsAttempts ≤ 1) ∧
    (∀ (m : String) (r : Nat → PollResp) (n : Nat),
        (waitForCompletion true (.wsRaise m) r n).result = (waitPoll r n).result) := by
  have h := push_error_downgrades_once_to_poll "Connection refused"
    readyFirstPollResp 599 [⟨"out.png", "", "output"⟩] (by decide)
  exact ⟨h.1, h.2.1, h.2.2⟩

/-! ## Claim theorems: BFL submission fallback -/

/-- A network environment where the primary flux-pro endpoint 404s, the
first alternative answers 500, and the third answers 200. -/
def cex5Env : PostEnv := fun u =>
  if u == "https://api.bfl.ai/flux-pro" then .ok ⟨404, none⟩
  else if u == "https://api.bfl.ai/flux-pro-1.1" then .ok ⟨500, none⟩
  else if u == "https://api.bfl.ai/v1/flux-pro-1.1" then
    .ok ⟨200, some "https://api.bfl.ai/poll/1"⟩
  else .error "unreachable"

/-- C5 counterexample: the first alternative returning a non-404 status
(`flux-pro-1.1`, status 500) is not the endpoint adopted; the loop skips
it and adopts the first alternative with a 200/201/202 status instead. -/
theorem bfl_first_non404_alternative_not_adopted :
    bflAlternatives (bflModelFor "flux-pro") =
      ["https://api.bfl.ai/flux-pro-1.1", "https://api.bfl.ai/flux-pro",
       "https://api.bfl.ai/v1/flux-pro-1.1"] ∧
    cex5Env "https://api.bfl.ai/flux-pro-1.1" = .ok ⟨500, none⟩ ∧
    (500 : Nat) ≠ 404 ∧
    (submitBfl cex5Env "flux-pro").1 =
      .adopted "https://api.bfl.ai/v1/flux-pro-1.1" ⟨200, some "https://api.bfl.ai/poll/1"⟩ ∧
    "https://api.bfl.ai/v1/flux-pro-1.1" ≠ "https://api.bfl.ai/flux-pro-1.1" := by
  refine ⟨by decide, rfl, by decide, by decide, by decide⟩

/-- C5 amended: after a 404 from the primary endpoint the client walks
the fixed alternative table in order and adopts the first entry,
distinct from the primary URL, that answers a success status
(200/201/202) — entries that raise, equal the primary, or answer any
other status (including non-404 errors) are skipped; the polling URL
used for every subsequent status poll of the job is the one carried by
that adopted endpoint's response.  Any non-404 error status from the
primary endpoint is surfaced immediately: the primary is the only URL
posted and no alternative is tried. -/
theorem bfl_fallback_first_success_and_immediate_error (env : PostEnv) (model : String) :
    (∀ (resp : HttpResp) (A : List String) (alt : String) (B : List String)
        (r : HttpResp) (u : String),
      env (bflApiUrl (bflModelFor model)) = .ok resp → resp.status = 404 →
      bflAlternatives (bflModelFor model) = A ++ alt :: B →
      (∀ a ∈ A, a = bflApiUrl (bflModelFor model) ∨ (∃ e, env a = .error e) ∨
          (∃ ra, env a = .ok ra ∧ bflSuccessStatus ra.status = false)) →
      alt ≠ bflApiUrl (bflModelFor model) →
      env alt = .ok r → bflSuccessStatus r.status = true →
      r.pollingUrl = some u → u ≠ "" →
      (submitBfl env model).1 = .adopted alt r ∧
      bflPollTarget env model = some u) ∧
    (∀ resp : HttpResp,
      env (bflApiUrl (bflModelFor model)) = .ok resp →
      resp.status ≠ 404 → 400 ≤ resp.status →
      submitBfl env model = (.httpError resp.status, [bflApiUrl (bflModelFor model)])) := by
  constructor
  · intro resp A alt B r u henv hst halts hA halt hr hs hpoll hne
    have hfound := tryAlternatives_first_success env (bflApiUrl (bflModelFor model))
      A alt B r hA halt hr hs
    have h404 : (resp.status == 404) = true := by simp [hst]
    have hsubmit : (submitBfl env model).1 = .adopted alt r := by
      simp only [submitBfl, henv, h404, if_true, halts]
      rcases hta : tryAlternatives env (bflApiUrl (bflModelFor model)) (A ++ alt :: B)
        with ⟨found, posted⟩
      rw [hta] at hfound
      simp only [] at hfound
      rw [hfound]
    refine ⟨hsubmit, ?_⟩
    have hemp : u.isEmpty = false := by
      rcases hb : u.isEmpty with _ | _
      · rfl
      · exact absurd ((String.isEmpty_iff u).mp hb) hne
    simp [bflPollTarget, hsubmit, hpoll, hemp]
  · intro resp henv hne h400
    have h404 : (resp.status == 404) = false := by simp [hne]
    simp only [submitBfl, henv, h404, Bool.false_eq_true, if_false]
    simp [h400]

/-- Witness for C5: part one at the concrete environment above (404
primary, 500 then 200 alternatives) and part two at an environment whose
primary answers 401 (auth error surfaced immediately). -/
def wit5Env : PostEnv := fun u =>
  if u == "https://api.bfl.ai/flux-pro" then .ok ⟨401, none⟩
  else .error "unreachable"

theorem bfl_fallback_witness :
    ((submitBfl cex5Env "flux-pro").1 =
        .adopted "https://api.bfl.ai/v1/flux-pro-1.1" ⟨200, some "https://api.bfl.ai/poll/1"⟩ ∧
      bflPollTarget cex5Env "flux-pro" = some "https://api.bfl.ai/poll/1") ∧
    submitBfl wit5Env "flux-pro" = (.httpError 401, [bflApiUrl (bflModelFor "flux-pro")]) := by
  constructor
  · exact (bfl_fallback_first_success_and_immediate_error cex5Env "flux-pro").1
      ⟨404, none⟩
      ["https://api.bfl.ai/flux-pro-1.1", "https://api.bfl.ai/flux-pro"]
      "https://api.bfl.ai/v1/flux-pro-1.1" []
      ⟨200, some "https://api.bfl.ai/poll/1"⟩ "https://api.bfl.ai/poll/1"
      rfl rfl (by decide)
      (by intro a ha
          simp only [List.mem_cons, List.not_mem_nil, or_false] at ha
          rcases ha with h | h
          · subst h
            right; right
            exact ⟨⟨500, none⟩, rfl, by decide⟩
          · subst h
            left
            decide)
      (by decide) rfl rfl rfl (by decide)
  · exact (bfl_fallback_first_success_and_immediate_error wit5Env "flux-pro").2
      ⟨401, none⟩ rfl (by decide) (by decide)

/-! ## Claim theorems: provider router and request immutability -/

/-- A registry holding one Flux adapter configured with model
`flux-pro`, and routing rules mapping img2img to it with a
`flux-kontext-pro` override. -/
def cex7Providers : ProviderMap :=
  [("flux", { kind := .flux, provider_name := "flux_bfl", model := "flux-pro" })]

def cex7Rules : RoutingRules :=
  { feature_routing := [("img2img", { provider := some "flux", model := some "flux-kontext-pro" })] }

def cex7Req : GenRequest :=
  { prompt := "edit this", source_image_url := some "http://host/img.png" }

/-- C7 counterexample: after selecting a provider through the img2img
feature rule with a model override, the shared registry's stored model
configuration has changed — the override is not scoped to the call. -/
theorem select_provider_mutates_shared_model_cex :
    (selectProvider cex7Rules cex7Providers cex7Req).2 ≠ cex7Providers ∧
    ((selectProvider cex7Rules cex7Providers cex7Req).2).lookup "flux" =
      some { kind := .flux, provider_name := "flux_bfl", model := "flux-kontext-pro" } ∧
    cex7Providers.lookup "flux" =
      some { kind := .flux, provider_name := "flux_bfl", model := "flux-pro" } := by
  refine ⟨by decide, by decide, by decide⟩

/-- C7 amended: when a request is routed via the img2img feature rule,
the rule names a registered Flux provider, and the rule carries a model
override, selection writes the override into the shared adapter's stored
model configuration, and the change persists in the registry after the
call (the style rule behaves the same way); it is not scoped to the
single call. -/
theorem feature_override_persists_on_shared_adapter
    (rules : RoutingRules) (providers : ProviderMap) (req : GenRequest)
    (cfg : RouteCfg) (pname : String) (prov : Provider) (m : String)
    (h1 : strTruthy req.provider = false)
    (h2 : strTruthy req.source_image_url = true)
    (h3 : rules.feature_routing.lookup "img2img" = some cfg)
    (h4 : cfg.provider = some pname)
    (h5 : providers.lookup pname = some prov)
    (h6 : prov.kind = .flux)
    (h7 : cfg.model = some m) :
    selectProvider rules providers req =
      (some { prov with model := m }, setProviderModel providers pname m) ∧
    ((selectProvider rules providers req).2).lookup pname =
      some { prov with model := m } := by
  have hroute : routeImg2Img rules.feature_routing providers =
      some ({ prov with model := m }, setProviderModel providers pname m) := by
    simp [routeImg2Img, h3, h4, h5, h6, h7]
  have hsel : selectProvider rules providers req =
      (some { prov with model := m }, setProviderModel providers pname m) := by
    unfold selectProvider
    rw [h1]
    simp only [Bool.false_eq_true, if_false]
    rw [h2]
    simp [hroute]
  refine ⟨hsel, ?_⟩
  rw [hsel]
  simp [lookup_setProviderModel, h5]

/-- Witness for C7 at the concrete registry above. -/
theorem feature_override_persists_witness :
    selectProvider cex7Rules cex7Providers cex7Req =
      (some { kind := .flux, provider_name := "flux_bfl", model := "flux-kontext-pro" },
       setProviderModel cex7Providers "flux" "flux-kontext-pro") ∧
    ((selectProvider cex7Rules cex7Providers cex7Req).2).lookup "flux" =
      some { kind := .flux, provider_name := "flux_bfl", model := "flux-kontext-pro" } :=
  feature_override_persists_on_shared_adapter cex7Rules cex7Providers cex7Req
    { provider := some "flux", model := some "flux-kontext-pro" } "flux"
    { kind := .flux, provider_name := "flux_bfl", model := "flux-pro" } "flux-kontext-pro"
    rfl rfl rfl rfl rfl rfl rfl

/-- C8: a request whose explicit provider override names an unregistered
provider resolves through the ordered fallback chain — the first
registered provider in the chain handles the call — and no error is
raised (the call returns that provider's result). -/
theorem unregistered_override_resolves_via_fallback
    (rules : RoutingRules) (providers : ProviderMap) (req : GenRequest)
    (genFn : Provider → GenRequest → GenResult)
    (x : String) (A : List String) (n : String) (B : List String) (p : Provider)
    (hx : req.provider = some x) (hxne : x ≠ "")
    (hmiss : providers.lookup x = none)
    (hchain : rules.fallback_chain = some (A ++ n :: B))
    (hA : ∀ a ∈ A, providers.lookup a = none)
    (hn : providers.lookup n = some p) :
    routerGenerate rules providers req genFn = (genFn p req, providers) := by
  have htruthy : strTruthy req.provider = true := by
    rw [hx]; exact strTruthy_some_of_ne x hxne
  have hsel : selectProvider rules providers req = (none, providers) := by
    unfold selectProvider
    rw [if_pos htruthy, hx]
    simpa using hmiss
  unfold routerGenerate
  rw [hsel]
  simp only [hchain, Option.getD_some]
  rw [findSome?_eq_of_first (fun nm => providers.lookup nm) A n B p hA hn]

/-- Witness for C8: registry holding only `openai`, override naming the
unregistered `comfyui-remote`, fallback chain `[comfyui, openai]`. -/
def wit8Provider : Provider :=
  { kind := .openai, provider_name := "openai", model := "dall-e-3" }

def wit8GenFn : Provider → GenRequest → GenResult :=
  fun p _ => { success := true, images := ["img-0"], provider := p.provider_name,
               model := p.model }

def wit8Req : GenRequest := { prompt := "a cat", provider := some "comfyui-remote" }

def wit8Rules : RoutingRules := { fallback_chain := some ["comfyui", "openai"] }

theorem unregistered_override_resolves_via_fallback_witness :
    routerGenerate wit8Rules [("openai", wit8Provider)] wit8Req wit8GenFn =
      (wit8GenFn wit8Provider wit8Req, [("openai", wit8Provider)]) :=
  unregistered_override_resolves_via_fallback wit8Rules [("openai", wit8Provider)]
    wit8Req wit8GenFn "comfyui-remote" ["comfyui"] "openai" [] wit8Provider
    rfl (by decide) rfl rfl
    (by intro a ha
        simp only [List.mem_singleton] at ha
        subst ha
        rfl)
    rfl

/-- C9: with an empty provider registry, generation for any request and
any routing rules returns the well-formed no-provider failure result
(success false, empty image list, error naming no available provider)
instead of raising. -/
theorem empty_registry_returns_no_provider_result (rules : RoutingRules)
    (req : GenRequest) (genFn : Provider → GenRequest → GenResult) :
    routerGenerate rules [] req genFn = (noProviderResult, []) ∧
    noProviderResult.success = false ∧ noProviderResult.images = [] ∧
    noProviderResult.error = some "No available image providers" := by
  refine ⟨?_, rfl, rfl, rfl⟩
  unfold routerGenerate
  rw [selectProvider_nil]
  simp [findSome?_none]

/-- C10 counterexample: the OpenAI adapter's generate call rewrites the
request's width and height attributes in place when they differ from
1024 — the request object observed after the call differs from the one
passed in. -/
def cex10Req : GenRequest := { prompt := "a cat", width := 512, height := 768 }

theorem openai_generate_mutates_request_cex :
    openaiAdjustRequest cex10Req ≠ cex10Req ∧
    (openaiAdjustRequest cex10Req).width = 1024 ∧ cex10Req.width = 512 ∧
    (openaiAdjustRequest cex10Req).height = 1024 ∧ cex10Req.height = 768 := by
  refine ⟨by decide, by decide, rfl, by decide, rfl⟩

/-- C10 amended: provider selection and the ComfyUI/Flux generate paths
leave the request untouched, but the OpenAI adapter forces the request's
width and height to 1024 in place, leaving every other field unchanged
(so the request is unchanged exactly when it already asked for
1024×1024). -/
theorem openai_generate_request_after_call (req : GenRequest) :
    openaiAdjustRequest req = { req with width := 1024, height := 1024 } := by
  unfold openaiAdjustRequest
  split
  · rfl
  · rename_i h
    push_neg at h
    obtain ⟨hw, hh⟩ := h
    cases req
    simp_all

end FluxGen
